import Mathlib

/-!
# libprocess HTTP client (`3rdparty/libprocess/src/http.cpp`)

A shallow embedding of `process::http::internal::decode`,
`process::http::internal::request`, `process::http::get` and
`process::http::post`, followed by the properties proved about them.

Conventions of the embedding:

* a `std::string` is the list of its `char` values, one element per byte, so
  `length()` is `List.length`;
* the effects of the code (socket primitives, asynchronous I/O, the parser,
  `delete`, logging) are recorded in order in a trace, and the heap objects
  the parser allocates live in an explicit heap;
* the outcomes of the collaborators (socket primitives, `io::write`,
  `io::read`, `ResponseDecoder`) are parameters, gathered in `Env`;
* futures are modelled in their settled state (ready or failed).
-/

namespace process

/-- A `std::string`: its bytes in order. -/
abbrev Str := List Char

/-- The text `operator<<` writes for an unsigned integer: its decimal digits. -/
def decimal (n : Nat) : Str := Nat.toDigits 10 n

/-- Modelled from the spec: `process::UPID` is declared in `process/pid.hpp`; the
fields kept are the ones `request` reads, the actor address of the specification:
`id` (a name string), `ip` (32-bit, network byte order) and `port` (16-bit). -/
structure UPID where
  id : Str
  ip : Nat
  port : Nat
deriving DecidableEq, Repr

/-- The text `inet_ntop(AF_INET, &upid.ip, ...)` produces: the four octets of the
address in memory order, in decimal, separated by dots. `upid.ip` is in network
byte order, so on the little-endian hosts this code runs on the first octet in
memory is the lowest byte of the integer. -/
def inet_ntop (ip : Nat) : Str :=
  decimal (ip % 256) ++ ".".toList ++ decimal (ip / 256 % 256) ++ ".".toList ++
    decimal (ip / 65536 % 256) ++ ".".toList ++ decimal (ip / 16777216 % 256)

/-- Modelled from the spec: `Try<T>` is declared in `stout/try.hpp`; a primitive
returns success with a value or a system-level diagnostic. -/
inductive Try (α : Type) where
  | some (value : α)
  | error (message : Str)
deriving DecidableEq, Repr

/-- Modelled from the spec: `Future<T>` is declared in `process/future.hpp`; this
is its settled state, completed with a value or failed with a reason. -/
inductive Future (α : Type) where
  | ready (value : α)
  | failed (message : Str)
deriving DecidableEq, Repr

namespace http

/-- Modelled from the spec: `process::http::Response` is declared in
`process/http.hpp`; the fields kept are the ones the spec names (status,
headers, body). -/
structure Response where
  status : Str
  headers : List (Str × Str)
  body : Str
deriving DecidableEq, Repr

/-- What `ResponseDecoder::decode` hands back for a buffer: the deque of
`Response*` (each entry is the address of a heap object the parser allocated,
given with the object it points to) and the flag `decoder.failed()`. -/
structure Parsed where
  responses : List (Nat × Response)
  failed : Bool
deriving DecidableEq, Repr

/-- The observable effects, in the order they happen. -/
inductive Event where
  | socket
  | cloexec (s : Nat)
  | connect (s : Nat) (ip : Nat) (port : Nat)
  | nonblock (s : Nat)
  | close (s : Nat)
  | write (s : Nat) (data : Str)
  | read (s : Nat)
  | parse (buffer : Str)
  | delete (p : Nat)
  | plog (message : Str)
deriving DecidableEq, Repr

/-- The state the code acts on: the live heap objects (address, value) and the
trace of effects so far. -/
structure World where
  heap : List (Nat × Response)
  trace : List Event
deriving DecidableEq, Repr

/-- Append one event to the trace. -/
def World.log (w : World) (e : Event) : World :=
  { w with trace := w.trace ++ [e] }

/-- The outcomes of the collaborators of `request`. -/
structure Env where
  /-- The result of `process::socket(AF_INET, SOCK_STREAM, IPPROTO_IP)`. -/
  socket : Try Nat
  /-- The result of `os::cloexec(s)`. -/
  cloexec : Nat → Try Unit
  /-- The return value of `connect(s, addr)` for the address built from `ip`, `port`. -/
  connect : Nat → Nat → Nat → Int
  /-- The text of `strerror(errno)` after `connect`. -/
  strerror : Str
  /-- The result of `os::nonblock(s)`. -/
  nonblock : Nat → Try Unit
  /-- The settled result of `io::write(s, data)`. -/
  write : Nat → Str → Future Unit
  /-- The settled result of `io::read(s)`. -/
  read : Nat → Future Str
  /-- The result of `ResponseDecoder::decode` on a buffer. -/
  decoder : Str → Parsed

/-- A computation that settles a future: it acts on the world and yields the
settled future, or `none` when it runs into undefined behaviour (reading or
deleting an object that is not live). -/
abbrev Async (α : Type) := World → Option (Future α × World)

/-- Modelled from the spec: `Future::then` of `process/future.hpp`, a
continuation that runs on completion; a failure is passed on and the
continuation does not run. -/
def then_ {α β : Type} (m : Async α) (f : α → Async β) : Async β := fun w =>
  match m w with
  | none => none
  | some (Future.ready a, w1) => f a w1
  | some (Future.failed msg, w1) => some (Future.failed msg, w1)

/-- Modelled from the spec: `Future::onAny` of `process/future.hpp`, a
continuation that runs regardless of the outcome and leaves the future as it is. -/
def onAny {α : Type} (m : Async α) (callback : World → World) : Async α := fun w =>
  match m w with
  | none => none
  | some (fut, w1) => some (fut, callback w1)

/-- The call `os::close(s)`; its result is not used by the code. -/
def os_close (s : Nat) (w : World) : World := w.log (Event.close s)

/-- The call `io::write(s, data)`. -/
def io_write (env : Env) (s : Nat) (data : Str) : Async Unit := fun w =>
  some (env.write s data, w.log (Event.write s data))

/-- The call `io::read(s)`. -/
def io_read (env : Env) (s : Nat) : Async Str := fun w =>
  some (env.read s, w.log (Event.read s))

/-- Reading through a pointer: the live object at address `p`. -/
def deref (w : World) (p : Nat) : Option Response := w.heap.lookup p

/-- The statement `delete p`: undefined unless `p` is live. -/
def delete (p : Nat) (w : World) : Option World :=
  if w.heap.any (fun o => o.1 == p) then
    some { heap := w.heap.filter (fun o => o.1 != p), trace := w.trace ++ [Event.delete p] }
  else none

/-- The loop `for (size_t i = 0; i < responses.size(); ++i) delete responses[i];`. -/
def deleteAll : List Nat → World → Option World
  | [], w => some w
  | p :: ps, w =>
    match delete p w with
    | none => none
    | some w1 => deleteAll ps w1

namespace internal

/-- The function `internal::decode` (lines 34-54). -/
def decode (decoder : Str → Parsed) (buffer : Str) : Async Response := fun w =>
  let parsed := decoder buffer
  let w0 : World := { heap := w.heap ++ parsed.responses, trace := w.trace ++ [Event.parse buffer] }
  let responses := parsed.responses.map Prod.fst
  if parsed.failed || responses.isEmpty then
    match deleteAll responses w0 with
    | none => none
    | some w1 =>
      some (Future.failed ("Failed to decode HTTP response:\n".toList ++ buffer ++ "\n".toList), w1)
  else
    let w1 := if responses.length > 1 then
        w0.log (Event.plog "Received more than 1 HTTP Response".toList) else w0
    match responses.head?.bind (deref w1) with
    | none => none
    | some response =>
      match deleteAll responses w1 with
      | none => none
      | some w2 => some (Future.ready response, w2)

/-- Lines 90-126 of `internal::request`: the text accumulated in the
`ostringstream out`, or the message of the failure of line 113 when `body` is
absent and `contentType` is present (the `os::close(s)` of line 112 is in
`request`). -/
def serialize (upid : UPID) (method : Str) (path query body contentType : Option Str) :
    Except Str Str :=
  let out := method ++ " /".toList ++ upid.id
  let out := match path with
    | some p => out ++ "/".toList ++ p
    | none => out
  let out := match query with
    | some q => out ++ "?".toList ++ q
    | none => out
  let out := out ++ " HTTP/1.1\r\n".toList
  let out := out ++ "Host: ".toList ++ inet_ntop upid.ip ++ ":".toList ++ decimal upid.port ++
    "\r\n".toList ++ "Connection: close\r\n".toList
  if body.isNone && contentType.isSome then
    Except.error "Attempted to do a POST with a Content-Type but no body".toList
  else
    let out := match contentType with
      | some c => out ++ "Content-Type: ".toList ++ c ++ "\r\n".toList
      | none => out
    match body with
    | none => Except.ok (out ++ "\r\n".toList)
    | some b =>
      Except.ok (out ++ "Content-Length: ".toList ++ decimal b.length ++ "\r\n".toList ++
        "\r\n".toList ++ b)

/-- The function `internal::request` (lines 57-141). -/
def request (env : Env) (upid : UPID) (method : Str)
    (path query body contentType : Option Str) : Async Response := fun w =>
  let w := w.log Event.socket
  match env.socket with
  | Try.error e => some (Future.failed ("Failed to create socket: ".toList ++ e), w)
  | Try.some s =>
    let w := w.log (Event.cloexec s)
    match env.cloexec s with
    | Try.error e => some (Future.failed ("Failed to cloexec: ".toList ++ e), os_close s w)
    | Try.some _ =>
      let w := w.log (Event.connect s upid.ip upid.port)
      if env.connect s upid.ip upid.port < 0 then
        some (Future.failed ("Failed to connect: ".toList ++ env.strerror), os_close s w)
      else
        match serialize upid method path query body contentType with
        | Except.error msg => some (Future.failed msg, os_close s w)
        | Except.ok out =>
          let w := w.log (Event.nonblock s)
          match env.nonblock s with
          | Try.error e =>
            some (Future.failed ("Failed to set nonblock: ".toList ++ e), os_close s w)
          | Try.some _ =>
            onAny
              (then_ (then_ (io_write env s out) (fun _ => io_read env s)) (decode env.decoder))
              (os_close s) w

end internal

/-- The function `http::get` (lines 147-153). -/
def get (env : Env) (upid : UPID) (path query : Option Str) : Async Response :=
  internal.request env upid "GET".toList path query none none

/-- The function `http::post` (lines 156-163). -/
def post (env : Env) (upid : UPID) (path body contentType : Option Str) : Async Response :=
  internal.request env upid "POST".toList path none body contentType

/-- The contract of the allocator behind the parser: the objects it hands back
are at distinct addresses and none of these addresses is already live. -/
def Fresh (parsed : Parsed) (w : World) : Prop :=
  (parsed.responses.map Prod.fst).Nodup ∧
    ∀ p ∈ parsed.responses.map Prod.fst, p ∉ w.heap.map Prod.fst

instance (parsed : Parsed) (w : World) : Decidable (Fresh parsed w) :=
  inferInstanceAs (Decidable ((parsed.responses.map Prod.fst).Nodup ∧
    ∀ p ∈ parsed.responses.map Prod.fst, p ∉ w.heap.map Prod.fst))

/-- The addresses passed to `delete` in a trace, in order. -/
def released (t : List Event) : List Nat :=
  t.filterMap fun e => match e with
    | Event.delete p => some p
    | _ => none

/-- The handles passed to `os::close` in a trace, in order. -/
def closed (t : List Event) : List Nat :=
  t.filterMap fun e => match e with
    | Event.close s => some s
    | _ => none

/-- The calls of `io::write` in a trace, in order: handle and bytes. -/
def written (t : List Event) : List (Nat × Str) :=
  t.filterMap fun e => match e with
    | Event.write s data => some (s, data)
    | _ => none

/-- The handles passed to `io::read` in a trace, in order. -/
def readFrom (t : List Event) : List Nat :=
  t.filterMap fun e => match e with
    | Event.read s => some s
    | _ => none

/-- The buffers handed to the parser in a trace, in order. -/
def parsedBuffers (t : List Event) : List Str :=
  t.filterMap fun e => match e with
    | Event.parse b => some b
    | _ => none

/-- The message of the failure `decode` returns for a buffer. -/
def decodeFailure (buffer : Str) : Str :=
  "Failed to decode HTTP response:\n".toList ++ buffer ++ "\n".toList

/-- The message of the failure of line 113. -/
def invalidRequest : Str :=
  "Attempted to do a POST with a Content-Type but no body".toList

/-- The future `decode` settles, as a function of what the parser handed back. -/
def decodeResult (parsed : Parsed) (buffer : Str) : Future Response :=
  match parsed.failed, parsed.responses with
  | false, (_, r) :: _ => Future.ready r
  | _, _ => Future.failed (decodeFailure buffer)

/-- The effects of `decode`, as a function of what the parser handed back. -/
def decodeTrace (parsed : Parsed) (buffer : Str) : List Event :=
  [Event.parse buffer] ++
    (if !parsed.failed && decide (1 < parsed.responses.length) then
      [Event.plog "Received more than 1 HTTP Response".toList] else []) ++
    (parsed.responses.map Prod.fst).map Event.delete

/-- The request bytes as the specification words them (§4.2): request line,
`Host`, `Connection: close`, the optional `Content-Type`, then either the blank
line alone or `Content-Length`, the blank line and the body. -/
def wireBytes (upid : UPID) (method : Str) (path query body contentType : Option Str) : Str :=
  method ++ " /".toList ++ upid.id ++
    (match path with
      | some p => "/".toList ++ p
      | none => []) ++
    (match query with
      | some q => "?".toList ++ q
      | none => []) ++
    " HTTP/1.1\r\n".toList ++
    "Host: ".toList ++ inet_ntop upid.ip ++ ":".toList ++ decimal upid.port ++ "\r\n".toList ++
    "Connection: close\r\n".toList ++
    (match contentType with
      | some c => "Content-Type: ".toList ++ c ++ "\r\n".toList
      | none => []) ++
    (match body with
      | none => "\r\n".toList
      | some b => "Content-Length: ".toList ++ decimal b.length ++ "\r\n\r\n".toList ++ b)

/-- The stages of the pipeline. -/
inductive Stage where
  | socket
  | cloexec
  | connect
  | nonblock
  | serialize
  | write
  | read
  | decode
deriving DecidableEq, Repr

/-- The failure a stage fails with, if it fails. A stage that works on the result
of an earlier stage (the handle, the serialized bytes, the buffer read) has no
failure of its own when that earlier stage produced no result. -/
def stageFailure (env : Env) (upid : UPID) (method : Str)
    (path query body contentType : Option Str) : Stage → Option Str
  | Stage.socket =>
    match env.socket with
    | Try.error e => some ("Failed to create socket: ".toList ++ e)
    | Try.some _ => none
  | Stage.cloexec =>
    match env.socket with
    | Try.error _ => none
    | Try.some s =>
      match env.cloexec s with
      | Try.error e => some ("Failed to cloexec: ".toList ++ e)
      | Try.some _ => none
  | Stage.connect =>
    match env.socket with
    | Try.error _ => none
    | Try.some s =>
      if env.connect s upid.ip upid.port < 0 then
        some ("Failed to connect: ".toList ++ env.strerror)
      else none
  | Stage.nonblock =>
    match env.socket with
    | Try.error _ => none
    | Try.some s =>
      match env.nonblock s with
      | Try.error e => some ("Failed to set nonblock: ".toList ++ e)
      | Try.some _ => none
  | Stage.serialize =>
    match internal.serialize upid method path query body contentType with
    | Except.error msg => some msg
    | Except.ok _ => none
  | Stage.write =>
    match env.socket, internal.serialize upid method path query body contentType with
    | Try.some s, Except.ok out =>
      match env.write s out with
      | Future.failed msg => some msg
      | Future.ready _ => none
    | _, _ => none
  | Stage.read =>
    match env.socket with
    | Try.error _ => none
    | Try.some s =>
      match env.read s with
      | Future.failed msg => some msg
      | Future.ready _ => none
  | Stage.decode =>
    match env.socket with
    | Try.error _ => none
    | Try.some s =>
      match env.read s with
      | Future.failed _ => none
      | Future.ready b =>
        match decodeResult (env.decoder b) b with
        | Future.failed msg => some msg
        | Future.ready _ => none

/-- The failure of the first stage that fails, the stages taken in the given order. -/
def firstFailure (order : List Stage) (env : Env) (upid : UPID) (method : Str)
    (path query body contentType : Option Str) : Option Str :=
  order.findSome? (stageFailure env upid method path query body contentType)

/-- The order in which the specification numbers the stages: socket set-up
(create, close-on-exec, connect, non-blocking), serialization, write, read, decode. -/
def specOrder : List Stage :=
  [Stage.socket, Stage.cloexec, Stage.connect, Stage.nonblock, Stage.serialize,
    Stage.write, Stage.read, Stage.decode]

/-- The order of the stages in the body of `internal::request`: the handle is
marked non-blocking (line 128) after the request is serialized and validated. -/
def codeOrder : List Stage :=
  [Stage.socket, Stage.cloexec, Stage.connect, Stage.serialize, Stage.nonblock,
    Stage.write, Stage.read, Stage.decode]

/-! ### A reader of HTTP/1.1 requests, to read back what the serializer wrote

The reader follows the specification's words: the request line is split at its
first two spaces, the target is split into path and query at the first `?`, the
header lines are split at CR LF, and the body is the `Content-Length` bytes that
follow the blank line. -/

/-- Whether a text contains the sequence CR LF. -/
def hasCRLF : Str → Bool
  | [] => false
  | c :: rest => (c == '\r' && rest.head? == some '\n') || hasCRLF rest

/-- Split a text at its first CR LF: what precedes it and what follows it. -/
def splitCRLF : Str → Option (Str × Str)
  | [] => none
  | c :: rest =>
    if c = '\r' ∧ rest.head? = some '\n' then some ([], rest.tail)
    else
      match splitCRLF rest with
      | none => none
      | some (line, after) => some (c :: line, after)

/-- Split a text at the first occurrence of a character. -/
def splitAtChar (sep : Char) : Str → Option (Str × Str)
  | [] => none
  | c :: rest =>
    if c = sep then some ([], rest)
    else
      match splitAtChar sep rest with
      | none => none
      | some (before, after) => some (c :: before, after)

/-- The header lines up to the blank line, and the text after the blank line.
Each line read consumes one unit of fuel. -/
def headerLines : Nat → Str → Option (List Str × Str)
  | 0, _ => none
  | fuel + 1, text =>
    match splitCRLF text with
    | none => none
    | some (line, after) =>
      if line = [] then some ([], after)
      else
        match headerLines fuel after with
        | none => none
        | some (lines, rest) => some (line :: lines, rest)

/-- A header line `name: value` as the pair of its name and value. -/
def headerField (line : Str) : Option (Str × Str) :=
  match splitAtChar ':' line with
  | none => none
  | some (name, value) => some (name, if value.head? = some ' ' then value.tail else value)

/-- The header lines as name and value pairs. -/
def headerFields : List Str → Option (List (Str × Str))
  | [] => some []
  | line :: lines =>
    match headerField line, headerFields lines with
    | some field, some fields => some (field :: fields)
    | _, _ => none

/-- The number a text of decimal digits denotes. -/
def parseDecimal (text : Str) : Option Nat :=
  if text = [] ∨ text.all Char.isDigit = false then none
  else some (text.foldl (fun n c => 10 * n + (c.toNat - 48)) 0)

/-- A request as read back from its bytes. -/
structure ParsedRequest where
  method : Str
  path : Str
  query : Option Str
  version : Str
  headers : List (Str × Str)
  body : Option Str
deriving DecidableEq, Repr

/-- Read a request from its bytes. -/
def parseRequest (bytes : Str) : Option ParsedRequest :=
  match splitCRLF bytes with
  | none => none
  | some (requestLine, afterLine) =>
    match splitAtChar ' ' requestLine with
    | none => none
    | some (method, afterMethod) =>
      match splitAtChar ' ' afterMethod with
      | none => none
      | some (target, version) =>
        match headerLines (afterLine.length + 1) afterLine with
        | none => none
        | some (lines, afterHeaders) =>
          match headerFields lines with
          | none => none
          | some headers =>
            let path := match splitAtChar '?' target with
              | none => target
              | some (p, _) => p
            let query := match splitAtChar '?' target with
              | none => none
              | some (_, q) => some q
            match headers.lookup "Content-Length".toList with
            | none =>
              some { method := method, path := path, query := query, version := version,
                     headers := headers, body := none }
            | some value =>
              match parseDecimal value with
              | none => none
              | some n =>
                if afterHeaders.length < n then none
                else
                  some { method := method, path := path, query := query, version := version,
                         headers := headers, body := some (afterHeaders.take n) }

/-- The part of the target a path contributes: `/path`, or nothing. -/
def pathPart : Option Str → Str
  | some p => "/".toList ++ p
  | none => []

/-- The part of the target a query contributes: `?query`, or nothing. -/
def queryPart : Option Str → Str
  | some q => "?".toList ++ q
  | none => []

/-- The request target the serializer writes: `/id[/path][?query]`. -/
def requestTarget (upid : UPID) (path query : Option Str) : Str :=
  "/".toList ++ upid.id ++ pathPart path ++ queryPart query

/-- The header lines the serializer writes, without their CR LF. -/
def emittedLines (upid : UPID) (body contentType : Option Str) : List Str :=
  ["Host: ".toList ++ inet_ntop upid.ip ++ ":".toList ++ decimal upid.port,
    "Connection: close".toList] ++
  (match contentType with
    | some c => ["Content-Type: ".toList ++ c]
    | none => []) ++
  (match body with
    | some b => ["Content-Length: ".toList ++ decimal b.length]
    | none => [])

/-- Header lines, each followed by CR LF, then the blank line and what follows it. -/
def joinLines : List Str → Str → Str
  | [], rest => '\r' :: '\n' :: rest
  | line :: lines, rest => line ++ '\r' :: '\n' :: joinLines lines rest

/-- The request a reader is expected to find in the bytes of a request, according
to the specification: the same method, the path `/id[/path]`, the same query, the
headers emitted, and the same body. -/
def expectedRequest (upid : UPID) (method : Str) (path query body contentType : Option Str) :
    ParsedRequest :=
  { method := method
    path := "/".toList ++ upid.id ++ pathPart path
    query := query
    version := "HTTP/1.1".toList
    headers :=
      [("Host".toList, inet_ntop upid.ip ++ ":".toList ++ decimal upid.port),
        ("Connection".toList, "close".toList)] ++
      (match contentType with
        | some c => [("Content-Type".toList, c)]
        | none => []) ++
      (match body with
        | some b => [("Content-Length".toList, decimal b.length)]
        | none => [])
    body := body }

/-! ### Concrete inputs used to exercise the theorems -/

/-- The actor `actor1` at 127.0.0.1:5050. -/
def sampleUpid : UPID := { id := "actor1".toList, ip := 16777343, port := 5050 }

/-- A parsed `200 OK` response with body `ok`. -/
def sampleOk : Response :=
  { status := "200 OK".toList, headers := [("Content-Length".toList, "2".toList)],
    body := "ok".toList }

/-- A parsed `404 Not Found` response with an empty body. -/
def sampleNotFound : Response :=
  { status := "404 Not Found".toList, headers := [], body := [] }

/-- A parser result with two objects and no failure. -/
def sampleTwo : Parsed := { responses := [(10, sampleOk), (11, sampleNotFound)], failed := false }

/-- A parser result with one object produced before the parser failed. -/
def sampleFailedAfterOne : Parsed := { responses := [(10, sampleOk)], failed := true }

/-- A world with one unrelated live object and an empty trace. -/
def sampleWorld : World := { heap := [(1, sampleNotFound)], trace := [] }

/-- An environment in which every collaborator succeeds; the peer replies with
two responses. -/
def sampleEnv : Env :=
  { socket := Try.some 3
    cloexec := fun _ => Try.some ()
    connect := fun _ _ _ => 0
    strerror := "Connection refused".toList
    nonblock := fun _ => Try.some ()
    write := fun _ _ => Future.ready ()
    read := fun _ => Future.ready "HTTP/1.1 200 OK\r\nContent-Length: 2\r\n\r\nok".toList
    decoder := fun _ => sampleTwo }

/-- As `sampleEnv`, but marking the handle non-blocking fails. -/
def sampleEnvNonblockFails : Env :=
  { sampleEnv with nonblock := fun _ => Try.error "Bad file descriptor".toList }

/-- As `sampleEnv`, but the read fails. -/
def sampleEnvReadFails : Env :=
  { sampleEnv with read := fun _ => Future.failed "Connection reset by peer".toList }

end http
end process

namespace process
namespace http

open internal

/-! ## The loop that releases the parsed objects -/

theorem delete_live (p : Nat) (w : World) (h : p ∈ w.heap.map Prod.fst) :
    delete p w = some { heap := w.heap.filter (fun o => o.1 != p),
                        trace := w.trace ++ [Event.delete p] } := by
  unfold delete
  have : w.heap.any (fun o => o.1 == p) = true := by
    simp only [List.any_eq_true, beq_iff_eq]
    obtain ⟨o, ho, rfl⟩ := List.mem_map.mp h
    exact ⟨o, ho, rfl⟩
  simp [this]

theorem deleteAll_live (ps : List Nat) :
    ∀ w : World, ps.Nodup → (∀ p ∈ ps, p ∈ w.heap.map Prod.fst) →
      deleteAll ps w = some { heap := w.heap.filter (fun o => decide (o.1 ∉ ps)),
                              trace := w.trace ++ ps.map Event.delete } := by
  induction ps with
  | nil => intro w _ _; simp [deleteAll]
  | cons p ps ih =>
    intro w hnd hlive
    have hp : p ∈ w.heap.map Prod.fst := hlive p (List.mem_cons_self _ _)
    obtain ⟨hpps, hnd2⟩ := List.nodup_cons.mp hnd
    rw [deleteAll, delete_live p w hp]
    simp only
    rw [ih _ hnd2]
    · simp only [List.filter_filter, List.map_cons, List.mem_cons, not_or,
        Option.some.injEq, World.mk.injEq]
      refine ⟨?_, by simp⟩
      apply List.filter_congr
      intro o _
      by_cases h1 : o.1 = p <;> by_cases h2 : o.1 ∈ ps <;> simp [h1, h2]
    · intro q hq
      obtain ⟨o, ho, rfl⟩ := List.mem_map.mp (hlive q (List.mem_cons_of_mem _ hq))
      refine List.mem_map.mpr ⟨o, ?_, rfl⟩
      simp only [List.mem_filter, bne_iff_ne, ne_eq]
      refine ⟨ho, ?_⟩
      intro h
      exact hpps (h ▸ hq)

/-! ## The decoder -/

theorem lookup_fresh (heap objs : List (Nat × Response)) (p : Nat) (r : Response)
    (h : p ∉ heap.map Prod.fst) : (heap ++ (p, r) :: objs).lookup p = some r := by
  induction heap with
  | nil => simp [List.lookup]
  | cons o heap ih =>
    obtain ⟨q, v⟩ := o
    simp only [List.map_cons, List.mem_cons, not_or] at h
    have hne : (p == q) = false := by simpa using h.1
    simp only [List.cons_append, List.lookup, hne]
    exact ih h.2

theorem filter_fresh (heap objs : List (Nat × Response))
    (h : ∀ p ∈ objs.map Prod.fst, p ∉ heap.map Prod.fst) :
    (heap ++ objs).filter (fun o => decide (o.1 ∉ objs.map Prod.fst)) = heap := by
  rw [List.filter_append]
  have h1 : heap.filter (fun o => decide (o.1 ∉ objs.map Prod.fst)) = heap := by
    apply List.filter_eq_self.mpr
    intro o ho
    simp only [decide_eq_true_eq]
    intro hmem
    exact h o.1 hmem (List.mem_map.mpr ⟨o, ho, rfl⟩)
  have h2 : objs.filter (fun o => decide (o.1 ∉ objs.map Prod.fst)) = [] := by
    apply List.filter_eq_nil_iff.mpr
    intro o ho
    simp only [decide_eq_true_eq, not_not]
    exact List.mem_map.mpr ⟨o, ho, rfl⟩
  rw [h1, h2, List.append_nil]

/-- Under the allocator contract `decode` runs to completion: it settles
`decodeResult`, leaves the heap as it found it and adds `decodeTrace` to the trace. -/
theorem decode_run (decoder : Str → Parsed) (buffer : Str) (w : World)
    (hf : Fresh (decoder buffer) w) :
    decode decoder buffer w =
      some (decodeResult (decoder buffer) buffer,
        World.mk w.heap (w.trace ++ decodeTrace (decoder buffer) buffer)) := by
  obtain ⟨hnd, hdisj⟩ := hf
  have hdel : ∀ t : List Event,
      deleteAll ((decoder buffer).responses.map Prod.fst)
        (World.mk (w.heap ++ (decoder buffer).responses) t) =
      some (World.mk w.heap (t ++ ((decoder buffer).responses.map Prod.fst).map Event.delete)) := by
    intro t
    rw [deleteAll_live _ _ hnd]
    · simp only [filter_fresh w.heap (decoder buffer).responses hdisj]
    · intro p hp
      simp only [List.map_append, List.mem_append]
      exact Or.inr hp
  unfold decode
  simp only
  by_cases hfail : (decoder buffer).failed = true
  · rw [hdel]
    simp [hfail, decodeResult, decodeTrace, decodeFailure]
  · have hfail2 : (decoder buffer).failed = false := by simpa using hfail
    cases hresp : (decoder buffer).responses with
    | nil =>
      simp [hfail2, deleteAll, decodeResult, decodeTrace, decodeFailure, hresp]
    | cons o rest =>
      obtain ⟨p, r⟩ := o
      rw [hresp] at hdel hdisj
      have hp : p ∉ w.heap.map Prod.fst := hdisj p (by simp)
      have hlook := lookup_fresh w.heap rest p r hp
      by_cases hlen : 1 < rest.length + 1
      · simp only [hfail2, List.map_cons, List.isEmpty_cons, Bool.or_self, Bool.false_eq_true,
          ↓reduceIte, gt_iff_lt, List.length_cons, List.length_map, hlen, World.log,
          List.head?_cons, Option.some_bind, deref, hlook]
        have := hdel (w.trace ++ [Event.parse buffer] ++
          [Event.plog "Received more than 1 HTTP Response".toList])
        simp only [List.map_cons] at this
        rw [this]
        simp [decodeResult, decodeTrace, hfail2, hlen, hresp]
      · simp only [hfail2, List.map_cons, List.isEmpty_cons, Bool.or_self, Bool.false_eq_true,
          ↓reduceIte, gt_iff_lt, List.length_cons, List.length_map, hlen, World.log,
          List.head?_cons, Option.some_bind, deref, hlook]
        have := hdel (w.trace ++ [Event.parse buffer])
        simp only [List.map_cons] at this
        rw [this]
        simp [decodeResult, decodeTrace, hfail2, hlen, hresp]

theorem released_append (t u : List Event) : released (t ++ u) = released t ++ released u := by
  simp [released, List.filterMap_append]

theorem released_decodeTrace (parsed : Parsed) (buffer : Str) :
    released (decodeTrace parsed buffer) = parsed.responses.map Prod.fst := by
  have h : ∀ ps : List Nat, released (ps.map Event.delete) = ps := by
    intro ps
    induction ps with
    | nil => rfl
    | cons p ps ih => simpa [released] using ih
  unfold decodeTrace
  rw [released_append, released_append, h]
  split <;> simp [released]

/-- C3: under the allocator contract, `decode` returns a failure if and only if the
parser reports failure or hands back no object, and the failure message is then
`"Failed to decode HTTP response:\n" ++ buffer ++ "\n"`. -/
theorem C3_decode_fails_iff (decoder : Str → Parsed) (buffer : Str) (w : World)
    (hf : Fresh (decoder buffer) w) :
    ∃ fut w1, decode decoder buffer w = some (fut, w1) ∧
      ((∃ msg, fut = Future.failed msg) ↔
        ((decoder buffer).failed = true ∨ (decoder buffer).responses = [])) ∧
      (((decoder buffer).failed = true ∨ (decoder buffer).responses = []) →
        fut = Future.failed
          ("Failed to decode HTTP response:\n".toList ++ buffer ++ "\n".toList)) := by
  refine ⟨_, _, decode_run decoder buffer w hf, ?_, ?_⟩
  · unfold decodeResult
    cases hfail : (decoder buffer).failed <;> cases hresp : (decoder buffer).responses <;> simp
  · unfold decodeResult
    cases hfail : (decoder buffer).failed <;> cases hresp : (decoder buffer).responses <;>
      simp [decodeFailure]

/-- C3 at the empty buffer with a parser that failed after producing one object. -/
theorem C3_decode_fails_iff_witness :
    Fresh sampleFailedAfterOne sampleWorld ∧
    ∃ fut w1, decode (fun _ => sampleFailedAfterOne) [] sampleWorld = some (fut, w1) ∧
      ((∃ msg, fut = Future.failed msg) ↔
        (sampleFailedAfterOne.failed = true ∨ sampleFailedAfterOne.responses = [])) ∧
      ((sampleFailedAfterOne.failed = true ∨ sampleFailedAfterOne.responses = []) →
        fut = Future.failed
          ("Failed to decode HTTP response:\n".toList ++ [] ++ "\n".toList)) :=
  ⟨by decide, C3_decode_fails_iff (fun _ => sampleFailedAfterOne) [] sampleWorld (by decide)⟩

/-- C4: under the allocator contract, when the parser does not report failure and
hands back the objects `r0, r1, ..., rn`, `decode` succeeds with `r0` unchanged,
however many objects follow it. -/
theorem C4_decode_returns_first (decoder : Str → Parsed) (buffer : Str) (w : World)
    (p0 : Nat) (r0 : Response) (rest : List (Nat × Response))
    (hf : Fresh (decoder buffer) w) (hok : (decoder buffer).failed = false)
    (hresp : (decoder buffer).responses = (p0, r0) :: rest) :
    ∃ w1, decode decoder buffer w = some (Future.ready r0, w1) := by
  refine ⟨World.mk w.heap (w.trace ++ decodeTrace (decoder buffer) buffer), ?_⟩
  rw [decode_run decoder buffer w hf]
  simp [decodeResult, hok, hresp]

/-- C4 for a buffer that yields two parsed responses: the result is the first. -/
theorem C4_decode_returns_first_witness :
    Fresh sampleTwo sampleWorld ∧ sampleTwo.failed = false ∧
    sampleTwo.responses = (10, sampleOk) :: [(11, sampleNotFound)] ∧
    ∃ w1, decode (fun _ => sampleTwo) "two".toList sampleWorld =
      some (Future.ready sampleOk, w1) :=
  ⟨by decide, rfl, rfl,
    C4_decode_returns_first (fun _ => sampleTwo) "two".toList sampleWorld 10 sampleOk
      [(11, sampleNotFound)] (by decide) rfl rfl⟩

/-- C6: under the allocator contract, `decode` runs to completion on every branch
and the addresses it passes to `delete` are exactly the objects the parser handed
back, each once, in order; the heap is left as it was before the parser ran; and
on success the returned value is the first object, read while it was still live. -/
theorem C6_decode_releases_all (decoder : Str → Parsed) (buffer : Str) (w : World)
    (hf : Fresh (decoder buffer) w) :
    ∃ fut w1, decode decoder buffer w = some (fut, w1) ∧
      released w1.trace = released w.trace ++ (decoder buffer).responses.map Prod.fst ∧
      (∀ o ∈ (decoder buffer).responses,
        (released w1.trace).count o.1 = (released w.trace).count o.1 + 1) ∧
      w1.heap = w.heap ∧
      (∀ p r rest, (decoder buffer).failed = false →
        (decoder buffer).responses = (p, r) :: rest → fut = Future.ready r) := by
  refine ⟨_, _, decode_run decoder buffer w hf, ?_, ?_, rfl, ?_⟩
  · simp only [released_append, released_decodeTrace]
  · intro o ho
    simp only [released_append, released_decodeTrace, List.count_append]
    have hmem : o.1 ∈ (decoder buffer).responses.map Prod.fst := List.mem_map.mpr ⟨o, ho, rfl⟩
    rw [List.count_eq_one_of_mem hf.1 hmem]
  · intro p r rest hok hresp
    simp [decodeResult, hok, hresp]

/-- C6 for a parser that failed after producing one object. -/
theorem C6_decode_releases_all_witness :
    Fresh sampleFailedAfterOne sampleWorld ∧
    ∃ fut w1, decode (fun _ => sampleFailedAfterOne) "x".toList sampleWorld = some (fut, w1) ∧
      released w1.trace = released sampleWorld.trace ++ sampleFailedAfterOne.responses.map Prod.fst ∧
      (∀ o ∈ sampleFailedAfterOne.responses,
        (released w1.trace).count o.1 = (released sampleWorld.trace).count o.1 + 1) ∧
      w1.heap = sampleWorld.heap ∧
      (∀ p r rest, sampleFailedAfterOne.failed = false →
        sampleFailedAfterOne.responses = (p, r) :: rest → fut = Future.ready r) :=
  ⟨by decide,
    C6_decode_releases_all (fun _ => sampleFailedAfterOne) "x".toList sampleWorld (by decide)⟩

/-! ## The paths through `request` -/

theorem serialize_invalid (upid : UPID) (method : Str) (path query : Option Str) (c : Str) :
    serialize upid method path query none (some c) = Except.error invalidRequest := by
  simp [serialize, invalidRequest]

theorem crlf_crlf : "\r\n\r\n".toList = "\r\n".toList ++ "\r\n".toList := by decide

theorem serialize_valid (upid : UPID) (method : Str) (path query body contentType : Option Str)
    (hv : ¬ (contentType.isSome = true ∧ body.isNone = true)) :
    serialize upid method path query body contentType =
      Except.ok (wireBytes upid method path query body contentType) := by
  cases path <;> cases query <;> cases body <;> cases contentType <;>
    simp [serialize, wireBytes, crlf_crlf] at hv ⊢

theorem request_socket_fails (env : Env) (upid : UPID) (method : Str)
    (path query body contentType : Option Str) (w : World) (e : Str)
    (hs : env.socket = Try.error e) :
    request env upid method path query body contentType w =
      some (Future.failed ("Failed to create socket: ".toList ++ e),
        World.mk w.heap (w.trace ++ [Event.socket])) := by
  simp [request, hs, World.log]

theorem request_cloexec_fails (env : Env) (upid : UPID) (method : Str)
    (path query body contentType : Option Str) (w : World) (s : Nat) (e : Str)
    (hs : env.socket = Try.some s) (hc : env.cloexec s = Try.error e) :
    request env upid method path query body contentType w =
      some (Future.failed ("Failed to cloexec: ".toList ++ e),
        World.mk w.heap (w.trace ++ [Event.socket, Event.cloexec s, Event.close s])) := by
  simp [request, hs, hc, World.log, os_close]

theorem request_connect_fails (env : Env) (upid : UPID) (method : Str)
    (path query body contentType : Option Str) (w : World) (s : Nat)
    (hs : env.socket = Try.some s) (hc : env.cloexec s = Try.some ())
    (hn : env.connect s upid.ip upid.port < 0) :
    request env upid method path query body contentType w =
      some (Future.failed ("Failed to connect: ".toList ++ env.strerror),
        World.mk w.heap (w.trace ++ [Event.socket, Event.cloexec s,
          Event.connect s upid.ip upid.port, Event.close s])) := by
  simp [request, hs, hc, hn, World.log, os_close]

theorem request_serialize_fails (env : Env) (upid : UPID) (method : Str)
    (path query body contentType : Option Str) (w : World) (s : Nat) (msg : Str)
    (hs : env.socket = Try.some s) (hc : env.cloexec s = Try.some ())
    (hn : ¬ env.connect s upid.ip upid.port < 0)
    (hser : serialize upid method path query body contentType = Except.error msg) :
    request env upid method path query body contentType w =
      some (Future.failed msg,
        World.mk w.heap (w.trace ++ [Event.socket, Event.cloexec s,
          Event.connect s upid.ip upid.port, Event.close s])) := by
  simp [request, hs, hc, hn, hser, World.log, os_close]

theorem request_nonblock_fails (env : Env) (upid : UPID) (method : Str)
    (path query body contentType : Option Str) (w : World) (s : Nat) (out e : Str)
    (hs : env.socket = Try.some s) (hc : env.cloexec s = Try.some ())
    (hn : ¬ env.connect s upid.ip upid.port < 0)
    (hser : serialize upid method path query body contentType = Except.ok out)
    (hnb : env.nonblock s = Try.error e) :
    request env upid method path query body contentType w =
      some (Future.failed ("Failed to set nonblock: ".toList ++ e),
        World.mk w.heap (w.trace ++ [Event.socket, Event.cloexec s,
          Event.connect s upid.ip upid.port, Event.nonblock s, Event.close s])) := by
  simp [request, hs, hc, hn, hser, hnb, World.log, os_close]

theorem request_write_fails (env : Env) (upid : UPID) (method : Str)
    (path query body contentType : Option Str) (w : World) (s : Nat) (out msg : Str)
    (hs : env.socket = Try.some s) (hc : env.cloexec s = Try.some ())
    (hn : ¬ env.connect s upid.ip upid.port < 0)
    (hser : serialize upid method path query body contentType = Except.ok out)
    (hnb : env.nonblock s = Try.some ()) (hw : env.write s out = Future.failed msg) :
    request env upid method path query body contentType w =
      some (Future.failed msg,
        World.mk w.heap (w.trace ++ [Event.socket, Event.cloexec s,
          Event.connect s upid.ip upid.port, Event.nonblock s, Event.write s out,
          Event.close s])) := by
  simp [request, hs, hc, hn, hser, hnb, hw, World.log, os_close, onAny, then_, io_write]

theorem request_read_fails (env : Env) (upid : UPID) (method : Str)
    (path query body contentType : Option Str) (w : World) (s : Nat) (out msg : Str)
    (hs : env.socket = Try.some s) (hc : env.cloexec s = Try.some ())
    (hn : ¬ env.connect s upid.ip upid.port < 0)
    (hser : serialize upid method path query body contentType = Except.ok out)
    (hnb : env.nonblock s = Try.some ()) (hw : env.write s out = Future.ready ())
    (hr : env.read s = Future.failed msg) :
    request env upid method path query body contentType w =
      some (Future.failed msg,
        World.mk w.heap (w.trace ++ [Event.socket, Event.cloexec s,
          Event.connect s upid.ip upid.port, Event.nonblock s, Event.write s out,
          Event.read s, Event.close s])) := by
  simp [request, hs, hc, hn, hser, hnb, hw, hr, World.log, os_close, onAny, then_, io_write,
    io_read]

theorem request_decodes (env : Env) (upid : UPID) (method : Str)
    (path query body contentType : Option Str) (w : World) (s : Nat) (out b : Str)
    (hf : Fresh (env.decoder b) w)
    (hs : env.socket = Try.some s) (hc : env.cloexec s = Try.some ())
    (hn : ¬ env.connect s upid.ip upid.port < 0)
    (hser : serialize upid method path query body contentType = Except.ok out)
    (hnb : env.nonblock s = Try.some ()) (hw : env.write s out = Future.ready ())
    (hr : env.read s = Future.ready b) :
    request env upid method path query body contentType w =
      some (decodeResult (env.decoder b) b,
        World.mk w.heap (w.trace ++ [Event.socket, Event.cloexec s,
          Event.connect s upid.ip upid.port, Event.nonblock s, Event.write s out,
          Event.read s] ++ decodeTrace (env.decoder b) b ++ [Event.close s])) := by
  have hf2 : ∀ t : List Event, Fresh (env.decoder b) (World.mk w.heap t) := fun _ => hf
  simp [request, hs, hc, hn, hser, hnb, hw, hr, World.log, os_close, onAny, then_, io_write,
    io_read, decode_run _ _ _ (hf2 _)]

/-! ## What a trace says about each collaborator -/

theorem closed_append (t u : List Event) : closed (t ++ u) = closed t ++ closed u := by
  simp [closed, List.filterMap_append]

theorem written_append (t u : List Event) : written (t ++ u) = written t ++ written u := by
  simp [written, List.filterMap_append]

theorem readFrom_append (t u : List Event) : readFrom (t ++ u) = readFrom t ++ readFrom u := by
  simp [readFrom, List.filterMap_append]

theorem parsedBuffers_append (t u : List Event) :
    parsedBuffers (t ++ u) = parsedBuffers t ++ parsedBuffers u := by
  simp [parsedBuffers, List.filterMap_append]

theorem closed_deletes (ps : List Nat) : closed (ps.map Event.delete) = [] := by
  simp [closed]

theorem written_deletes (ps : List Nat) : written (ps.map Event.delete) = [] := by
  simp [written]

theorem readFrom_deletes (ps : List Nat) : readFrom (ps.map Event.delete) = [] := by
  simp [readFrom]

theorem parsedBuffers_deletes (ps : List Nat) : parsedBuffers (ps.map Event.delete) = [] := by
  simp [parsedBuffers]

theorem closed_decodeTrace (parsed : Parsed) (buffer : Str) :
    closed (decodeTrace parsed buffer) = [] := by
  unfold decodeTrace
  rw [closed_append, closed_append, closed_deletes]
  split <;> simp [closed]

theorem written_decodeTrace (parsed : Parsed) (buffer : Str) :
    written (decodeTrace parsed buffer) = [] := by
  unfold decodeTrace
  rw [written_append, written_append, written_deletes]
  split <;> simp [written]

theorem readFrom_decodeTrace (parsed : Parsed) (buffer : Str) :
    readFrom (decodeTrace parsed buffer) = [] := by
  unfold decodeTrace
  rw [readFrom_append, readFrom_append, readFrom_deletes]
  split <;> simp [readFrom]

theorem parsedBuffers_decodeTrace (parsed : Parsed) (buffer : Str) :
    parsedBuffers (decodeTrace parsed buffer) = [buffer] := by
  unfold decodeTrace
  rw [parsedBuffers_append, parsedBuffers_append, parsedBuffers_deletes]
  split <;> simp [parsedBuffers]

/-! ## The serializer and the bytes written -/

/-- C1: when the socket set-up succeeds and the request passes validation, `request`
hands to `io::write`, once, exactly the bytes the specification words: request line,
`Host`, `Connection: close`, optional `Content-Type`, then the blank line alone or
`Content-Length` with the byte length of the body, the blank line and the body. -/
theorem C1_written_bytes (env : Env) (upid : UPID) (method : Str)
    (path query body contentType : Option Str) (w : World) (s : Nat)
    (hf : ∀ b, Fresh (env.decoder b) w)
    (hs : env.socket = Try.some s) (hc : env.cloexec s = Try.some ())
    (hn : ¬ env.connect s upid.ip upid.port < 0) (hnb : env.nonblock s = Try.some ())
    (hv : ¬ (contentType.isSome = true ∧ body.isNone = true)) :
    serialize upid method path query body contentType =
      Except.ok (wireBytes upid method path query body contentType) ∧
    ∃ fut w1, request env upid method path query body contentType w = some (fut, w1) ∧
      written w1.trace =
        written w.trace ++ [(s, wireBytes upid method path query body contentType)] := by
  have hser := serialize_valid upid method path query body contentType hv
  refine ⟨hser, ?_⟩
  cases hw : env.write s (wireBytes upid method path query body contentType) with
  | failed msg =>
    exact ⟨_, _, request_write_fails env upid method path query body contentType w s _ msg
      hs hc hn hser hnb hw, by simp [written_append, written]⟩
  | ready u =>
    cases hr : env.read s with
    | failed msg =>
      exact ⟨_, _, request_read_fails env upid method path query body contentType w s _ msg
        hs hc hn hser hnb hw hr, by simp [written_append, written]⟩
    | ready b =>
      exact ⟨_, _, request_decodes env upid method path query body contentType w s _ b
        (hf b) hs hc hn hser hnb hw hr,
        by simp only [written_append, written_decodeTrace]; simp [written]⟩

/-- C1 for a POST with a present but empty body: `Content-Length: 0` and nothing
after the blank line. -/
theorem C1_written_bytes_witness :
    (∀ b, Fresh (sampleEnv.decoder b) sampleWorld) ∧
    sampleEnv.socket = Try.some 3 ∧ sampleEnv.cloexec 3 = Try.some () ∧
    ¬ sampleEnv.connect 3 sampleUpid.ip sampleUpid.port < 0 ∧
    sampleEnv.nonblock 3 = Try.some () ∧
    wireBytes sampleUpid "POST".toList (some "a b".toList) none (some []) (some "text/plain".toList) =
      ("POST /actor1/a b HTTP/1.1\r\nHost: 127.0.0.1:5050\r\nConnection: close\r\n" ++
        "Content-Type: text/plain\r\nContent-Length: 0\r\n\r\n").toList ∧
    (serialize sampleUpid "POST".toList (some "a b".toList) none (some [])
        (some "text/plain".toList) =
      Except.ok (wireBytes sampleUpid "POST".toList (some "a b".toList) none (some [])
        (some "text/plain".toList)) ∧
    ∃ fut w1, request sampleEnv sampleUpid "POST".toList (some "a b".toList) none (some [])
        (some "text/plain".toList) sampleWorld = some (fut, w1) ∧
      written w1.trace = written sampleWorld.trace ++
        [(3, wireBytes sampleUpid "POST".toList (some "a b".toList) none (some [])
          (some "text/plain".toList))]) :=
  ⟨fun _ => (by decide : Fresh sampleTwo sampleWorld), rfl, rfl, by decide, rfl, by decide,
    C1_written_bytes sampleEnv sampleUpid "POST".toList (some "a b".toList) none (some [])
      (some "text/plain".toList) sampleWorld 3
      (fun _ => (by decide : Fresh sampleTwo sampleWorld)) rfl rfl (by decide) rfl (by decide)⟩

/-- C2: the serialization inside `request` fails, with the message
"Attempted to do a POST with a Content-Type but no body", if and only if
`contentType` is present and `body` is absent, and produces bytes in every other
case; when socket creation, close-on-exec and connect have succeeded, `request`
then resolves to that failure, closes the handle and writes nothing. -/
theorem C2_invalid_request_iff (env : Env) (upid : UPID) (method : Str)
    (path query body contentType : Option Str) (w : World) (s : Nat)
    (hs : env.socket = Try.some s) (hc : env.cloexec s = Try.some ())
    (hn : ¬ env.connect s upid.ip upid.port < 0) :
    ((∃ msg, serialize upid method path query body contentType = Except.error msg) ↔
      (contentType.isSome = true ∧ body.isNone = true)) ∧
    ((∃ bytes, serialize upid method path query body contentType = Except.ok bytes) ↔
      ¬ (contentType.isSome = true ∧ body.isNone = true)) ∧
    ((contentType.isSome = true ∧ body.isNone = true) →
      serialize upid method path query body contentType =
        Except.error "Attempted to do a POST with a Content-Type but no body".toList ∧
      request env upid method path query body contentType w =
        some (Future.failed "Attempted to do a POST with a Content-Type but no body".toList,
          World.mk w.heap (w.trace ++ [Event.socket, Event.cloexec s,
            Event.connect s upid.ip upid.port, Event.close s]))) := by
  by_cases hv : contentType.isSome = true ∧ body.isNone = true
  · obtain ⟨c, rfl⟩ := Option.isSome_iff_exists.mp hv.1
    have hb : body = none := by simpa using hv.2
    subst hb
    have hser := serialize_invalid upid method path query c
    refine ⟨?_, ?_, ?_⟩
    · simp [hser]
    · simp [hser]
    · intro _
      exact ⟨hser, request_serialize_fails env upid method (path) query none (some c) w s _
        hs hc hn hser⟩
  · have hser := serialize_valid upid method path query body contentType hv
    refine ⟨?_, ?_, ?_⟩
    · exact ⟨fun ⟨msg, h⟩ => (by rw [hser] at h; cases h), fun h => absurd h hv⟩
    · exact ⟨fun _ => hv, fun _ => ⟨_, hser⟩⟩
    · intro h; exact absurd h hv

/-- C2 for a POST with a content type and no body. -/
theorem C2_invalid_request_iff_witness :
    sampleEnv.socket = Try.some 3 ∧ sampleEnv.cloexec 3 = Try.some () ∧
    ¬ sampleEnv.connect 3 sampleUpid.ip sampleUpid.port < 0 ∧
    request sampleEnv sampleUpid "POST".toList none none none (some "text/plain".toList)
        sampleWorld =
      some (Future.failed "Attempted to do a POST with a Content-Type but no body".toList,
        World.mk sampleWorld.heap (sampleWorld.trace ++ [Event.socket, Event.cloexec 3,
          Event.connect 3 sampleUpid.ip sampleUpid.port, Event.close 3])) :=
  ⟨rfl, rfl, by decide,
    ((C2_invalid_request_iff sampleEnv sampleUpid "POST".toList none none none
      (some "text/plain".toList) sampleWorld 3 rfl rfl (by decide)).2.2 ⟨rfl, rfl⟩).2⟩

/-! ## Closing the handle -/

/-- C5: with settled collaborators and under the allocator contract, `request` runs
to completion and closes the handle exactly once when socket creation succeeded,
whichever stage fails or if none does, and closes nothing when socket creation
failed. -/
theorem C5_closed_exactly_once (env : Env) (upid : UPID) (method : Str)
    (path query body contentType : Option Str) (w : World)
    (hf : ∀ b, Fresh (env.decoder b) w) :
    ∃ fut w1, request env upid method path query body contentType w = some (fut, w1) ∧
      closed w1.trace = closed w.trace ++
        (match env.socket with
          | Try.some s => [s]
          | Try.error _ => []) := by
  cases hs : env.socket with
  | error e =>
    exact ⟨_, _, request_socket_fails env upid method path query body contentType w e hs,
      by simp [closed_append, closed]⟩
  | some s =>
    cases hc : env.cloexec s with
    | error e =>
      exact ⟨_, _, request_cloexec_fails env upid method path query body contentType w s e
        hs hc, by simp [closed_append, closed]⟩
    | some u =>
      by_cases hn : env.connect s upid.ip upid.port < 0
      · exact ⟨_, _, request_connect_fails env upid method path query body contentType w s
          hs hc hn, by simp [closed_append, closed]⟩
      · cases hser : serialize upid method path query body contentType with
        | error msg =>
          exact ⟨_, _, request_serialize_fails env upid method path query body contentType w s
            msg hs hc hn hser, by simp [closed_append, closed]⟩
        | ok out =>
          cases hnb : env.nonblock s with
          | error e =>
            exact ⟨_, _, request_nonblock_fails env upid method path query body contentType w
              s out e hs hc hn hser hnb, by simp [closed_append, closed]⟩
          | some u2 =>
            cases hw : env.write s out with
            | failed msg =>
              exact ⟨_, _, request_write_fails env upid method path query body contentType w
                s out msg hs hc hn hser hnb hw, by simp [closed_append, closed]⟩
            | ready u3 =>
              cases hr : env.read s with
              | failed msg =>
                exact ⟨_, _, request_read_fails env upid method path query body contentType w
                  s out msg hs hc hn hser hnb hw hr, by simp [closed_append, closed]⟩
              | ready b =>
                exact ⟨_, _, request_decodes env upid method path query body contentType w
                  s out b (hf b) hs hc hn hser hnb hw hr,
                  by simp only [closed_append, closed_decodeTrace]; simp [closed]⟩

/-- C5 on a full exchange that decodes two responses: handle 3 is closed once. -/
theorem C5_closed_exactly_once_witness :
    (∀ b, Fresh (sampleEnv.decoder b) sampleWorld) ∧
    ∃ fut w1, request sampleEnv sampleUpid "GET".toList none none none none sampleWorld =
        some (fut, w1) ∧
      closed w1.trace = closed sampleWorld.trace ++
        (match sampleEnv.socket with
          | Try.some s => [s]
          | Try.error _ => []) :=
  ⟨fun _ => (by decide : Fresh sampleTwo sampleWorld),
    C5_closed_exactly_once sampleEnv sampleUpid "GET".toList none none none none sampleWorld
      (fun _ => (by decide : Fresh sampleTwo sampleWorld))⟩

/-! ## The order of the stages -/

/-- C8 as stated fails: with the stages taken in the order socket set-up,
serialization, write, read, decode, the first stage that fails here is the socket
set-up (marking the handle non-blocking), yet `request` resolves to the failure of
the serialization. -/
theorem C8_counterexample :
    firstFailure specOrder sampleEnvNonblockFails sampleUpid "PUT".toList (some "x".toList)
        none none (some "application/json".toList) =
      some ("Failed to set nonblock: ".toList ++ "Bad file descriptor".toList) ∧
    (request sampleEnvNonblockFails sampleUpid "PUT".toList (some "x".toList) none none
        (some "application/json".toList) sampleWorld).map Prod.fst =
      some (Future.failed "Attempted to do a POST with a Content-Type but no body".toList) ∧
    (request sampleEnvNonblockFails sampleUpid "PUT".toList (some "x".toList) none none
        (some "application/json".toList) sampleWorld).map Prod.fst ≠
      some (Future.failed ("Failed to set nonblock: ".toList ++ "Bad file descriptor".toList)) := by
  decide

/-- C8, amended: under the allocator contract `request` runs to completion and is
the short-circuiting composition of its stages in the order socket creation,
close-on-exec, connect, serialization, non-blocking, write, read, decode. Its
result is the failure of the first stage that fails in that order, and the result
of `decode` on the buffer read when every earlier stage succeeds. `io::write` is
invoked at most once, with the serialized bytes, and only if the five stages
before it succeeded; `io::read` only if the write succeeded; the parser only if
the read succeeded. -/
theorem C8_short_circuit_in_code_order (env : Env) (upid : UPID) (method : Str)
    (path query body contentType : Option Str) (w : World)
    (hf : ∀ b, Fresh (env.decoder b) w) :
    ∃ fut w1, request env upid method path query body contentType w = some (fut, w1) ∧
      (∀ msg, firstFailure codeOrder env upid method path query body contentType = some msg →
        fut = Future.failed msg) ∧
      (∀ s out b, env.socket = Try.some s → env.cloexec s = Try.some () →
        ¬ env.connect s upid.ip upid.port < 0 →
        serialize upid method path query body contentType = Except.ok out →
        env.nonblock s = Try.some () → env.write s out = Future.ready () →
        env.read s = Future.ready b →
        ∃ w2, decode env.decoder b (World.mk w.heap (w.trace ++ [Event.socket, Event.cloexec s,
          Event.connect s upid.ip upid.port, Event.nonblock s, Event.write s out,
          Event.read s])) = some (fut, w2)) ∧
      (written w1.trace = written w.trace ∨
        ∃ s out, written w1.trace = written w.trace ++ [(s, out)] ∧
          env.socket = Try.some s ∧ env.cloexec s = Try.some () ∧
          ¬ env.connect s upid.ip upid.port < 0 ∧
          serialize upid method path query body contentType = Except.ok out ∧
          env.nonblock s = Try.some ()) ∧
      (readFrom w1.trace = readFrom w.trace ∨
        ∃ s out, readFrom w1.trace = readFrom w.trace ++ [s] ∧
          written w1.trace = written w.trace ++ [(s, out)] ∧
          env.write s out = Future.ready ()) ∧
      (parsedBuffers w1.trace = parsedBuffers w.trace ∨
        ∃ s b, parsedBuffers w1.trace = parsedBuffers w.trace ++ [b] ∧
          readFrom w1.trace = readFrom w.trace ++ [s] ∧
          env.read s = Future.ready b) := by
  cases hs : env.socket with
  | error e =>
    refine ⟨_, _, request_socket_fails env upid method path query body contentType w e hs,
      ?_, ?_, ?_, ?_, ?_⟩
    · intro msg h
      simp only [firstFailure, codeOrder, List.findSome?, stageFailure, hs,
        ↓reduceIte] at h
      exact congrArg Future.failed (Option.some.inj h)
    · intro s out b h; cases h
    · left; simp [written_append, written]
    · left; simp [readFrom_append, readFrom]
    · left; simp [parsedBuffers_append, parsedBuffers]
  | some s =>
    cases hc : env.cloexec s with
    | error e =>
      refine ⟨_, _, request_cloexec_fails env upid method path query body contentType w s e
        hs hc, ?_, ?_, ?_, ?_, ?_⟩
      · intro msg h
        simp only [firstFailure, codeOrder, List.findSome?, stageFailure, hs, hc,
          ↓reduceIte] at h
        exact congrArg Future.failed (Option.some.inj h)
      · intro s2 out b h1 h2; cases h1; rw [hc] at h2; cases h2
      · left; simp [written_append, written]
      · left; simp [readFrom_append, readFrom]
      · left; simp [parsedBuffers_append, parsedBuffers]
    | some u =>
      by_cases hn : env.connect s upid.ip upid.port < 0
      · refine ⟨_, _, request_connect_fails env upid method path query body contentType w s
          hs hc hn, ?_, ?_, ?_, ?_, ?_⟩
        · intro msg h
          simp only [firstFailure, codeOrder, List.findSome?, stageFailure, hs, hc, hn,
            ↓reduceIte] at h
          exact congrArg Future.failed (Option.some.inj h)
        · intro s2 out b h1 _ h3; cases h1; exact absurd hn h3
        · left; simp [written_append, written]
        · left; simp [readFrom_append, readFrom]
        · left; simp [parsedBuffers_append, parsedBuffers]
      · cases hser : serialize upid method path query body contentType with
        | error m =>
          refine ⟨_, _, request_serialize_fails env upid method path query body contentType w
            s m hs hc hn hser, ?_, ?_, ?_, ?_, ?_⟩
          · intro msg h
            simp only [firstFailure, codeOrder, List.findSome?, stageFailure, hs, hc, hn, hser,
              ↓reduceIte] at h
            exact congrArg Future.failed (Option.some.inj h)
          · intro s2 out b _ _ _ h4; cases h4
          · left; simp [written_append, written]
          · left; simp [readFrom_append, readFrom]
          · left; simp [parsedBuffers_append, parsedBuffers]
        | ok out =>
          cases hnb : env.nonblock s with
          | error e =>
            refine ⟨_, _, request_nonblock_fails env upid method path query body contentType
              w s out e hs hc hn hser hnb, ?_, ?_, ?_, ?_, ?_⟩
            · intro msg h
              simp only [firstFailure, codeOrder, List.findSome?, stageFailure, hs, hc, hn, hser, hnb,
                ↓reduceIte] at h
              exact congrArg Future.failed (Option.some.inj h)
            · intro s2 out2 b h1 _ _ _ h5; cases h1; rw [hnb] at h5; cases h5
            · left; simp [written_append, written]
            · left; simp [readFrom_append, readFrom]
            · left; simp [parsedBuffers_append, parsedBuffers]
          | some u2 =>
            cases hw : env.write s out with
            | failed m =>
              refine ⟨_, _, request_write_fails env upid method path query body contentType
                w s out m hs hc hn hser hnb hw, ?_, ?_, ?_, ?_, ?_⟩
              · intro msg h
                simp only [firstFailure, codeOrder, List.findSome?, stageFailure, hs, hc, hn, hser, hnb, hw,
                  ↓reduceIte] at h
                exact congrArg Future.failed (Option.some.inj h)
              · intro s2 out2 b h1 _ _ h4 _ h6
                cases h1; cases h4; rw [hw] at h6; cases h6
              · right; exact ⟨s, out, by simp [written_append, written], rfl, hc, hn, rfl, hnb⟩
              · left; simp [readFrom_append, readFrom]
              · left; simp [parsedBuffers_append, parsedBuffers]
            | ready u3 =>
              cases hr : env.read s with
              | failed m =>
                refine ⟨_, _, request_read_fails env upid method path query body contentType
                  w s out m hs hc hn hser hnb hw hr, ?_, ?_, ?_, ?_, ?_⟩
                · intro msg h
                  simp only [firstFailure, codeOrder, List.findSome?, stageFailure, hs, hc, hn, hser, hnb, hw,
                    hr,
                    ↓reduceIte] at h
                  exact congrArg Future.failed (Option.some.inj h)
                · intro s2 out2 b h1 _ _ _ _ _ h7
                  cases h1; rw [hr] at h7; cases h7
                · right
                  exact ⟨s, out, by simp [written_append, written], rfl, hc, hn, rfl, hnb⟩
                · right
                  exact ⟨s, out, by simp [readFrom_append, readFrom],
                    by simp [written_append, written], hw⟩
                · left; simp [parsedBuffers_append, parsedBuffers]
              | ready b =>
                refine ⟨_, _, request_decodes env upid method path query body contentType
                  w s out b (hf b) hs hc hn hser hnb hw hr, ?_, ?_, ?_, ?_, ?_⟩
                · intro msg h
                  simp only [firstFailure, codeOrder, List.findSome?, stageFailure, hs, hc, hn,
                    hser, hnb, hw, hr, if_false] at h
                  cases hd : decodeResult (env.decoder b) b with
                  | failed m2 => rw [hd] at h; simp at h; rw [h]
                  | ready r => rw [hd] at h; simp at h
                · intro s2 out2 b2 h1 _ _ h4 _ _ h7
                  cases h1; cases h4; rw [hr] at h7; cases h7
                  exact ⟨_, decode_run env.decoder b _ (hf b)⟩
                · right
                  refine ⟨s, out, ?_, rfl, hc, hn, rfl, hnb⟩
                  simp only [written_append, written_decodeTrace]; simp [written]
                · right
                  refine ⟨s, out, ?_, ?_, hw⟩
                  · simp only [readFrom_append, readFrom_decodeTrace]; simp [readFrom]
                  · simp only [written_append, written_decodeTrace]; simp [written]
                · right
                  refine ⟨s, b, ?_, ?_, hr⟩
                  · simp only [parsedBuffers_append, parsedBuffers_decodeTrace]
                    simp [parsedBuffers]
                  · simp only [readFrom_append, readFrom_decodeTrace]; simp [readFrom]

/-- C8, amended, where two stages would fail and where a late stage fails. A
request with a content type and no body, on a handle that could not be marked
non-blocking, resolves to the failure of the serialization, the first failing
stage in the order of the code, and nothing is written, read or parsed. A `GET`
whose read fails resolves to the failure of the read and nothing is parsed. -/
theorem C8_short_circuit_in_code_order_witness :
    (∀ b, Fresh (sampleEnvNonblockFails.decoder b) sampleWorld) ∧
    firstFailure codeOrder sampleEnvNonblockFails sampleUpid "POST".toList
        (some "upload".toList) none none (some "text/plain".toList) =
      some "Attempted to do a POST with a Content-Type but no body".toList ∧
    firstFailure codeOrder sampleEnvReadFails sampleUpid "GET".toList none none none none =
      some "Connection reset by peer".toList ∧
    (∃ fut w1, request sampleEnvNonblockFails sampleUpid "POST".toList (some "upload".toList)
        none none (some "text/plain".toList) sampleWorld = some (fut, w1) ∧
      fut = Future.failed "Attempted to do a POST with a Content-Type but no body".toList ∧
      written w1.trace = written sampleWorld.trace ∧
      readFrom w1.trace = readFrom sampleWorld.trace ∧
      parsedBuffers w1.trace = parsedBuffers sampleWorld.trace) ∧
    (∃ fut w1, request sampleEnvReadFails sampleUpid "GET".toList none none none none
        sampleWorld = some (fut, w1) ∧
      fut = Future.failed "Connection reset by peer".toList ∧
      parsedBuffers w1.trace = parsedBuffers sampleWorld.trace) := by
  refine ⟨fun _ => (by decide : Fresh sampleTwo sampleWorld), by decide, by decide, ?_, ?_⟩
  · obtain ⟨fut, w1, h, h1, _, hw, hr, hp⟩ :=
      C8_short_circuit_in_code_order sampleEnvNonblockFails sampleUpid "POST".toList
        (some "upload".toList) none none (some "text/plain".toList) sampleWorld
        (fun _ => (by decide : Fresh sampleTwo sampleWorld))
    have hfut := h1 "Attempted to do a POST with a Content-Type but no body".toList (by decide)
    have hwritten : written w1.trace = written sampleWorld.trace := by
      rcases hw with hw | ⟨s, out, _, _, _, _, hser, _⟩
      · exact hw
      · rw [serialize_invalid] at hser
        cases hser
    have hread : readFrom w1.trace = readFrom sampleWorld.trace := by
      rcases hr with hr | ⟨s, out, _, hw2, _⟩
      · exact hr
      · rw [hwritten] at hw2
        simp at hw2
    have hparse : parsedBuffers w1.trace = parsedBuffers sampleWorld.trace := by
      rcases hp with hp | ⟨s, b, _, hr2, _⟩
      · exact hp
      · rw [hread] at hr2
        simp at hr2
    exact ⟨fut, w1, h, hfut, hwritten, hread, hparse⟩
  · obtain ⟨fut, w1, h, h1, _, _, _, hp⟩ :=
      C8_short_circuit_in_code_order sampleEnvReadFails sampleUpid "GET".toList none none none
        none sampleWorld (fun _ => (by decide : Fresh sampleTwo sampleWorld))
    have hfut := h1 "Connection reset by peer".toList (by decide)
    have hparse : parsedBuffers w1.trace = parsedBuffers sampleWorld.trace := by
      rcases hp with hp | ⟨s, b, _, _, hrd⟩
      · exact hp
      · simp [sampleEnvReadFails] at hrd
    exact ⟨fut, w1, h, hfut, hparse⟩

/-! ## Reading a request back from its bytes -/

theorem digitChar_spec : ∀ d, d < 10 →
    (Nat.digitChar d).isDigit = true ∧ (Nat.digitChar d).toNat - 48 = d := by
  decide

theorem toDigitsCore_acc (fuel : Nat) : ∀ (n : Nat) (ds : List Char),
    Nat.toDigitsCore 10 fuel n ds = Nat.toDigitsCore 10 fuel n [] ++ ds := by
  induction fuel with
  | zero => intro n ds; simp [Nat.toDigitsCore]
  | succ fuel ih =>
    intro n ds
    simp only [Nat.toDigitsCore]
    split
    · simp
    · rw [ih (n / 10) (_ :: ds), ih (n / 10) [_]]
      simp

theorem toDigitsCore_spec (fuel : Nat) : ∀ n : Nat, n < fuel →
    Nat.toDigitsCore 10 fuel n [] ≠ [] ∧
    (Nat.toDigitsCore 10 fuel n []).all Char.isDigit = true ∧
    (Nat.toDigitsCore 10 fuel n []).foldl (fun m c => 10 * m + (c.toNat - 48)) 0 = n := by
  induction fuel with
  | zero => intro n h; omega
  | succ fuel ih =>
    intro n hn
    have hd := digitChar_spec (n % 10) (Nat.mod_lt _ (by decide))
    simp only [Nat.toDigitsCore]
    split
    · rename_i h0
      have hlt : n < 10 := by omega
      have hmod : n % 10 = n := Nat.mod_eq_of_lt hlt
      rw [hmod] at hd ⊢
      simp [hd.1, hd.2]
    · rename_i h0
      have hlt : n / 10 < fuel := by omega
      obtain ⟨h1, h2, h3⟩ := ih (n / 10) hlt
      rw [toDigitsCore_acc]
      refine ⟨by simp, ?_, ?_⟩
      · simp only [List.all_append, h2, Bool.true_and, List.all_cons, List.all_nil,
          Bool.and_true]
        exact hd.1
      · simp only [List.foldl_append, h3, List.foldl_cons, List.foldl_nil, hd.2]
        omega

theorem parseDecimal_decimal (n : Nat) : parseDecimal (decimal n) = some n := by
  obtain ⟨h1, h2, h3⟩ := toDigitsCore_spec (n + 1) n (Nat.lt_succ_self n)
  unfold parseDecimal decimal Nat.toDigits
  simp [h1, h2, h3]

theorem decimal_isDigit (n : Nat) : ∀ c ∈ decimal n, c.isDigit = true := by
  obtain ⟨_, h2, _⟩ := toDigitsCore_spec (n + 1) n (Nat.lt_succ_self n)
  exact List.all_eq_true.mp h2

theorem decimal_no_cr (n : Nat) : '\r' ∉ decimal n := by
  intro h
  have := decimal_isDigit n _ h
  revert this
  decide

theorem inet_ntop_no_cr (ip : Nat) : '\r' ∉ inet_ntop ip := by
  unfold inet_ntop
  simp only [List.mem_append, not_or]
  refine ⟨⟨⟨⟨⟨⟨decimal_no_cr _, by decide⟩, decimal_no_cr _⟩, by decide⟩, decimal_no_cr _⟩,
    by decide⟩, decimal_no_cr _⟩

theorem hasCRLF_of_no_cr (text : Str) (h : '\r' ∉ text) : hasCRLF text = false := by
  induction text with
  | nil => rfl
  | cons c rest ih =>
    simp only [List.mem_cons, not_or] at h
    have hc : (c == '\r') = false := by
      simp only [beq_eq_false_iff_ne, ne_eq]
      exact fun e => h.1 e.symm
    simp [hasCRLF, hc, ih h.2]

theorem hasCRLF_append (a b : Str) (ha : hasCRLF a = false) (hb : hasCRLF b = false)
    (hj : b.head? ≠ some '\n') : hasCRLF (a ++ b) = false := by
  induction a with
  | nil => simpa using hb
  | cons c rest ih =>
    simp only [hasCRLF, Bool.or_eq_false_iff, Bool.and_eq_false_imp, beq_iff_eq] at ha
    simp only [List.cons_append, hasCRLF, Bool.or_eq_false_iff, Bool.and_eq_false_imp,
      beq_iff_eq]
    refine ⟨?_, ih ha.2⟩
    intro hc
    have h1 := ha.1 hc
    cases rest with
    | nil => simpa using hj
    | cons d rest2 => simpa using h1

theorem splitCRLF_append (a b : Str) (ha : hasCRLF a = false) :
    splitCRLF (a ++ '\r' :: '\n' :: b) = some (a, b) := by
  induction a with
  | nil => simp [splitCRLF]
  | cons c rest ih =>
    simp only [hasCRLF, Bool.or_eq_false_iff, Bool.and_eq_false_imp, beq_iff_eq] at ha
    have hno : ¬ (c = '\r' ∧ (rest ++ '\r' :: '\n' :: b).head? = some '\n') := by
      rintro ⟨hc, hh⟩
      have h1 := ha.1 hc
      cases rest with
      | nil => simp at hh
      | cons d rest2 => simp at hh h1; exact h1 hh
    rw [List.cons_append, splitCRLF, if_neg hno, ih ha.2]

theorem splitAtChar_append (sep : Char) (a b : Str) (ha : sep ∉ a) :
    splitAtChar sep (a ++ sep :: b) = some (a, b) := by
  induction a with
  | nil => simp [splitAtChar]
  | cons c rest ih =>
    simp only [List.mem_cons, not_or] at ha
    have hc : ¬ c = sep := fun e => ha.1 e.symm
    rw [List.cons_append, splitAtChar, if_neg hc, ih ha.2]

theorem splitAtChar_none (sep : Char) (a : Str) (ha : sep ∉ a) : splitAtChar sep a = none := by
  induction a with
  | nil => rfl
  | cons c rest ih =>
    simp only [List.mem_cons, not_or] at ha
    have hc : ¬ c = sep := fun e => ha.1 e.symm
    rw [splitAtChar, if_neg hc, ih ha.2]

theorem joinLines_length (lines : List Str) (rest : Str) :
    lines.length < (joinLines lines rest).length := by
  induction lines with
  | nil => simp [joinLines]
  | cons line lines ih => simp only [joinLines, List.length_append, List.length_cons]; omega

theorem headerLines_joinLines (lines : List Str) (rest : Str) :
    ∀ fuel, lines.length < fuel → (∀ line ∈ lines, line ≠ [] ∧ hasCRLF line = false) →
      headerLines fuel (joinLines lines rest) = some (lines, rest) := by
  induction lines with
  | nil =>
    intro fuel hfuel _
    obtain ⟨k, rfl⟩ : ∃ k, fuel = k + 1 := ⟨fuel - 1, by simp at hfuel; omega⟩
    simp [headerLines, joinLines, splitCRLF]
  | cons line lines ih =>
    intro fuel hfuel hl
    obtain ⟨k, rfl⟩ : ∃ k, fuel = k + 1 := ⟨fuel - 1, by simp at hfuel; omega⟩
    have h1 := hl line (List.mem_cons_self _ _)
    have h2 := ih k (by simpa using hfuel) (fun l hmem => hl l (List.mem_cons_of_mem _ hmem))
    simp only [headerLines, joinLines, splitCRLF_append _ _ h1.2, h1.1, if_false, h2]

theorem hasCRLF_cons (c : Char) (text : Str) (hc : c ≠ '\r') :
    hasCRLF (c :: text) = hasCRLF text := by
  have : (c == '\r') = false := by simpa using hc
  simp [hasCRLF, this]

theorem hasCRLF_append_sep (a b : Str) (c : Char) (ha : hasCRLF a = false)
    (hb : hasCRLF b = false) (h1 : c ≠ '\r') (h2 : c ≠ '\n') :
    hasCRLF (a ++ c :: b) = false := by
  apply hasCRLF_append a (c :: b) ha
  · rw [hasCRLF_cons c b h1]; exact hb
  · simpa using h2

theorem wireBytes_shape (upid : UPID) (method : Str) (path query body contentType : Option Str) :
    wireBytes upid method path query body contentType =
      (method ++ ' ' :: (requestTarget upid path query ++ ' ' :: "HTTP/1.1".toList)) ++
        '\r' :: '\n' :: joinLines (emittedLines upid body contentType) (body.getD []) := by
  cases path <;> cases query <;> cases body <;> cases contentType <;>
    simp [wireBytes, requestTarget, pathPart, queryPart, emittedLines, joinLines]

theorem pathPart_clean (path : Option Str)
    (hp : ∀ p, path = some p → ' ' ∉ p ∧ '?' ∉ p ∧ hasCRLF p = false) :
    ' ' ∉ pathPart path ∧ '?' ∉ pathPart path ∧ hasCRLF (pathPart path) = false ∧
      (pathPart path).head? ≠ some '\n' := by
  cases path with
  | none => simp [pathPart, hasCRLF]
  | some p =>
    obtain ⟨h1, h2, h3⟩ := hp p rfl
    refine ⟨by simp [pathPart, h1], by simp [pathPart, h2], ?_, by simp [pathPart]⟩
    show hasCRLF ('/' :: p) = false
    rw [hasCRLF_cons _ _ (by decide)]; exact h3

theorem queryPart_clean (query : Option Str)
    (hq : ∀ q, query = some q → ' ' ∉ q ∧ hasCRLF q = false) :
    ' ' ∉ queryPart query ∧ hasCRLF (queryPart query) = false ∧
      (queryPart query).head? ≠ some '\n' := by
  cases query with
  | none => simp [queryPart, hasCRLF]
  | some q =>
    obtain ⟨h1, h2⟩ := hq q rfl
    refine ⟨by simp [queryPart, h1], ?_, by simp [queryPart]⟩
    show hasCRLF ('?' :: q) = false
    rw [hasCRLF_cons _ _ (by decide)]; exact h2

theorem requestTarget_clean (upid : UPID) (path query : Option Str)
    (hid : ' ' ∉ upid.id ∧ hasCRLF upid.id = false)
    (hp : ∀ p, path = some p → ' ' ∉ p ∧ '?' ∉ p ∧ hasCRLF p = false)
    (hq : ∀ q, query = some q → ' ' ∉ q ∧ hasCRLF q = false) :
    ' ' ∉ requestTarget upid path query ∧ hasCRLF (requestTarget upid path query) = false := by
  obtain ⟨p1, _, p3, p4⟩ := pathPart_clean path hp
  obtain ⟨q1, q2, q3⟩ := queryPart_clean query hq
  unfold requestTarget
  refine ⟨by simp [hid.1, p1, q1], ?_⟩
  have hpq : hasCRLF (pathPart path ++ queryPart query) = false :=
    hasCRLF_append _ _ p3 q2 q3
  have hpq2 : (pathPart path ++ queryPart query).head? ≠ some '\n' := by
    cases hpp : pathPart path with
    | nil => simpa using q3
    | cons c rest => rw [hpp] at p4; simpa using p4
  show hasCRLF ('/' :: upid.id ++ pathPart path ++ queryPart query) = false
  rw [List.append_assoc, List.cons_append, hasCRLF_cons _ _ (by decide)]
  exact hasCRLF_append _ _ hid.2 hpq hpq2

theorem requestTarget_split (upid : UPID) (path query : Option Str)
    (hid : '?' ∉ upid.id) (hp : '?' ∉ pathPart path) :
    splitAtChar '?' (requestTarget upid path query) =
      match query with
      | none => none
      | some q => some ("/".toList ++ upid.id ++ pathPart path, q) := by
  have hpre : '?' ∉ "/".toList ++ upid.id ++ pathPart path := by
    simp [hid, hp]
  unfold requestTarget
  cases query with
  | none => simpa [queryPart] using splitAtChar_none '?' _ hpre
  | some q => exact splitAtChar_append '?' _ q hpre

theorem emittedLines_clean (upid : UPID) (body contentType : Option Str)
    (hct : ∀ c, contentType = some c → hasCRLF c = false) :
    ∀ line ∈ emittedLines upid body contentType, line ≠ [] ∧ hasCRLF line = false := by
  have hhost : hasCRLF ("Host: ".toList ++ inet_ntop upid.ip ++ ":".toList ++
      decimal upid.port) = false := by
    apply hasCRLF_of_no_cr
    simp only [List.mem_append, not_or]
    exact ⟨⟨⟨by decide, inet_ntop_no_cr _⟩, by decide⟩, decimal_no_cr _⟩
  intro line hmem
  simp only [emittedLines, List.mem_append, List.mem_cons, List.mem_singleton,
    List.not_mem_nil, or_false] at hmem
  rcases hmem with ((rfl | rfl) | hmem) | hmem
  · exact ⟨by simp, hhost⟩
  · exact ⟨by decide, by decide⟩
  · cases contentType with
    | none => simp at hmem
    | some c =>
      simp only [List.mem_singleton] at hmem
      subst hmem
      refine ⟨by simp, ?_⟩
      have h := hct c rfl
      simp [hasCRLF, h]
  · cases body with
    | none => simp at hmem
    | some b =>
      simp only [List.mem_singleton] at hmem
      subst hmem
      refine ⟨by simp, ?_⟩
      apply hasCRLF_of_no_cr
      simp only [List.mem_append, not_or]
      exact ⟨by decide, decimal_no_cr _⟩

theorem emittedLines_fields (upid : UPID) (method : Str)
    (path query body contentType : Option Str) :
    headerFields (emittedLines upid body contentType) =
      some (expectedRequest upid method path query body contentType).headers := by
  cases body <;> cases contentType <;>
    simp [emittedLines, expectedRequest, headerFields, headerField, splitAtChar]

theorem expected_contentLength (upid : UPID) (method : Str)
    (path query body contentType : Option Str) :
    (expectedRequest upid method path query body contentType).headers.lookup
        "Content-Length".toList =
      body.map (fun b => decimal b.length) := by
  have h1 : ("Content-Length".toList == "Host".toList) = false := by decide
  have h2 : ("Content-Length".toList == "Connection".toList) = false := by decide
  have h3 : ("Content-Length".toList == "Content-Type".toList) = false := by decide
  have h4 : ("Content-Length".toList == "Content-Length".toList) = true := by decide
  cases body <;> cases contentType <;>
    simp only [expectedRequest, List.cons_append, List.nil_append, List.append_nil,
      List.lookup, h1, h2, h3, h4, Option.map_none', Option.map_some']

/-- C9 as stated fails: a path that contains `?` is read back as a shorter path
and a query. -/
theorem C9_counterexample :
    serialize sampleUpid "GET".toList (some "a?b".toList) none none none =
      Except.ok "GET /actor1/a?b HTTP/1.1\r\nHost: 127.0.0.1:5050\r\nConnection: close\r\n\r\n".toList ∧
    parseRequest
        "GET /actor1/a?b HTTP/1.1\r\nHost: 127.0.0.1:5050\r\nConnection: close\r\n\r\n".toList =
      some { method := "GET".toList, path := "/actor1/a".toList, query := some "b".toList,
             version := "HTTP/1.1".toList,
             headers := [("Host".toList, "127.0.0.1:5050".toList),
               ("Connection".toList, "close".toList)],
             body := none } ∧
    parseRequest
        "GET /actor1/a?b HTTP/1.1\r\nHost: 127.0.0.1:5050\r\nConnection: close\r\n\r\n".toList ≠
      some (expectedRequest sampleUpid "GET".toList (some "a?b".toList) none none none) ∧
    (expectedRequest sampleUpid "GET".toList (some "a?b".toList) none none none).path =
      "/actor1/a?b".toList ∧
    (expectedRequest sampleUpid "GET".toList (some "a?b".toList) none none none).query = none :=
  ⟨rfl, by decide, by decide, by decide, rfl⟩

/-- C9, amended: for every input the validation accepts in which the method, the
actor id, the path and the query contain no space, the actor id and the path
contain no `?`, and the method, the actor id, the path, the query and the content
type contain no CR LF sequence, reading the serialized bytes back yields the same
method, the path `/id[/path]`, the same query, version `HTTP/1.1`, exactly the
headers emitted, and the same body. -/
theorem C9_round_trip (upid : UPID) (method : Str) (path query body contentType : Option Str)
    (hv : ¬ (contentType.isSome = true ∧ body.isNone = true))
    (hm : ' ' ∉ method ∧ hasCRLF method = false)
    (hid : ' ' ∉ upid.id ∧ '?' ∉ upid.id ∧ hasCRLF upid.id = false)
    (hp : ∀ p, path = some p → ' ' ∉ p ∧ '?' ∉ p ∧ hasCRLF p = false)
    (hq : ∀ q, query = some q → ' ' ∉ q ∧ hasCRLF q = false)
    (hct : ∀ c, contentType = some c → hasCRLF c = false) :
    ∃ bytes, serialize upid method path query body contentType = Except.ok bytes ∧
      parseRequest bytes = some (expectedRequest upid method path query body contentType) := by
  refine ⟨_, serialize_valid upid method path query body contentType hv, ?_⟩
  obtain ⟨ht1, ht2⟩ := requestTarget_clean upid path query ⟨hid.1, hid.2.2⟩ hp hq
  have hline : hasCRLF (method ++ ' ' :: (requestTarget upid path query ++
      ' ' :: "HTTP/1.1".toList)) = false :=
    hasCRLF_append_sep method _ ' ' hm.2
      (hasCRLF_append_sep _ _ ' ' ht2 (by decide) (by decide) (by decide))
      (by decide) (by decide)
  have hfuel : (emittedLines upid body contentType).length <
      (joinLines (emittedLines upid body contentType) (body.getD [])).length + 1 :=
    Nat.lt_succ_of_lt (joinLines_length _ _)
  rw [wireBytes_shape]
  unfold parseRequest
  rw [splitCRLF_append _ _ hline]
  simp only
  rw [splitAtChar_append ' ' method _ hm.1]
  simp only
  rw [splitAtChar_append ' ' _ _ ht1]
  simp only
  rw [headerLines_joinLines _ _ _ hfuel (emittedLines_clean upid body contentType hct)]
  simp only
  rw [emittedLines_fields upid method path query]
  simp only
  rw [expected_contentLength, requestTarget_split upid path query hid.2.1
    (pathPart_clean path hp).2.1]
  cases body with
  | none => cases query <;> simp [expectedRequest, requestTarget, queryPart]
  | some b =>
    cases query <;>
      simp [parseDecimal_decimal, expectedRequest, requestTarget, queryPart]

/-- C9, amended, on a POST with path, query, content type and a body that itself
contains CR LF. -/
theorem C9_round_trip_witness :
    ¬ ((some "text/plain; charset=utf-8".toList).isSome = true ∧
        (some "a\r\n\r\nb".toList).isNone = true) ∧
    ∃ bytes, serialize sampleUpid "POST".toList (some "x/y".toList) (some "k=v&q=?".toList)
        (some "a\r\n\r\nb".toList) (some "text/plain; charset=utf-8".toList) =
        Except.ok bytes ∧
      parseRequest bytes = some (expectedRequest sampleUpid "POST".toList (some "x/y".toList)
        (some "k=v&q=?".toList) (some "a\r\n\r\nb".toList)
        (some "text/plain; charset=utf-8".toList)) :=
  ⟨by decide,
    C9_round_trip sampleUpid "POST".toList (some "x/y".toList) (some "k=v&q=?".toList)
      (some "a\r\n\r\nb".toList) (some "text/plain; charset=utf-8".toList)
      (by decide) (by decide) (by decide)
      (fun p h => by cases h; decide) (fun q h => by cases h; decide)
      (fun c h => by cases h; decide)⟩

/-! ## The facades -/

theorem splitAtChar_append_exists (sep : Char) (a b : Str) :
    ∃ x y, splitAtChar sep (a ++ sep :: b) = some (x, y) ∧ ∀ c ∈ x, c ∈ a := by
  induction a with
  | nil => exact ⟨[], b, by simp [splitAtChar], by simp⟩
  | cons c rest ih =>
    by_cases hc : c = sep
    · exact ⟨[], rest ++ sep :: b, by rw [List.cons_append, splitAtChar, if_pos hc], by simp⟩
    · obtain ⟨x, y, h, hx⟩ := ih
      refine ⟨c :: x, y, by rw [List.cons_append, splitAtChar, if_neg hc, h], ?_⟩
      intro d hd
      rcases List.mem_cons.mp hd with rfl | hd
      · exact List.mem_cons_self _ _
      · exact List.mem_cons_of_mem _ (hx d hd)

theorem requestTarget_noCRLF (upid : UPID) (path query : Option Str)
    (hid : hasCRLF upid.id = false) (hp : ∀ p, path = some p → hasCRLF p = false)
    (hq : ∀ q, query = some q → hasCRLF q = false) :
    hasCRLF (requestTarget upid path query) = false := by
  have p3 : hasCRLF (pathPart path) = false ∧ (pathPart path).head? ≠ some '\n' := by
    cases path with
    | none => simp [pathPart, hasCRLF]
    | some p =>
      refine ⟨?_, by simp [pathPart]⟩
      show hasCRLF ('/' :: p) = false
      rw [hasCRLF_cons _ _ (by decide)]; exact hp p rfl
  have q3 : hasCRLF (queryPart query) = false ∧ (queryPart query).head? ≠ some '\n' := by
    cases query with
    | none => simp [queryPart, hasCRLF]
    | some q =>
      refine ⟨?_, by simp [queryPart]⟩
      show hasCRLF ('?' :: q) = false
      rw [hasCRLF_cons _ _ (by decide)]; exact hq q rfl
  have hpq : hasCRLF (pathPart path ++ queryPart query) = false :=
    hasCRLF_append _ _ p3.1 q3.1 q3.2
  have hpq2 : (pathPart path ++ queryPart query).head? ≠ some '\n' := by
    cases hpp : pathPart path with
    | nil => simpa using q3.2
    | cons c rest => have := p3.2; rw [hpp] at this; simpa using this
  show hasCRLF ('/' :: upid.id ++ pathPart path ++ queryPart query) = false
  rw [List.append_assoc, List.cons_append, hasCRLF_cons _ _ (by decide)]
  exact hasCRLF_append _ _ hid hpq hpq2

/-- What is read back from the serialized bytes when the method has no space and
nothing in the request line or the content type contains CR LF: the method, the
headers emitted and the body, and no query when the target has no `?`. -/
theorem parseRequest_wireBytes (upid : UPID) (method : Str)
    (path query body contentType : Option Str)
    (hm : ' ' ∉ method ∧ hasCRLF method = false)
    (hid : hasCRLF upid.id = false) (hp : ∀ p, path = some p → hasCRLF p = false)
    (hq : ∀ q, query = some q → hasCRLF q = false)
    (hct : ∀ c, contentType = some c → hasCRLF c = false) :
    ∃ r, parseRequest (wireBytes upid method path query body contentType) = some r ∧
      r.method = method ∧
      r.headers = (expectedRequest upid method path query body contentType).headers ∧
      r.body = body ∧
      ('?' ∉ requestTarget upid path query → r.query = none) := by
  have ht2 := requestTarget_noCRLF upid path query hid hp hq
  have hline : hasCRLF (method ++ ' ' :: (requestTarget upid path query ++
      ' ' :: "HTTP/1.1".toList)) = false :=
    hasCRLF_append_sep method _ ' ' hm.2
      (hasCRLF_append_sep _ _ ' ' ht2 (by decide) (by decide) (by decide))
      (by decide) (by decide)
  have hfuel : (emittedLines upid body contentType).length <
      (joinLines (emittedLines upid body contentType) (body.getD [])).length + 1 :=
    Nat.lt_succ_of_lt (joinLines_length _ _)
  obtain ⟨t, v, hsplit, ht⟩ :=
    splitAtChar_append_exists ' ' (requestTarget upid path query) "HTTP/1.1".toList
  have hquery : '?' ∉ requestTarget upid path query → splitAtChar '?' t = none :=
    fun h => splitAtChar_none '?' t (fun hmem => h (ht _ hmem))
  rw [wireBytes_shape]
  unfold parseRequest
  rw [splitCRLF_append _ _ hline]
  simp only
  rw [splitAtChar_append ' ' method _ hm.1]
  simp only
  rw [hsplit]
  simp only
  rw [headerLines_joinLines _ _ _ hfuel (emittedLines_clean upid body contentType hct)]
  simp only
  rw [emittedLines_fields upid method path query]
  simp only
  rw [expected_contentLength]
  cases body with
  | none =>
    refine ⟨_, rfl, rfl, rfl, rfl, ?_⟩
    intro h
    simp only [hquery h]
  | some b =>
    simp only [Option.map_some', parseDecimal_decimal, Option.getD_some, lt_self_iff_false,
      if_false, List.take_length]
    refine ⟨_, rfl, rfl, rfl, rfl, ?_⟩
    intro h
    simp only [hquery h]

/-- C10 as stated fails: the bytes `get` writes for a path that contains CR LF read
back with a `Content-Length` header, and the bytes `post` writes for a path that
contains `?` read back with a query. -/
theorem C10_counterexample :
    (get sampleEnv sampleUpid (some "x HTTP/1.1\r\nContent-Length: 0\r\nX-Pad: y".toList) none
        sampleWorld).map (fun r => written r.2.trace) =
      some [(3, ("GET /actor1/x HTTP/1.1\r\nContent-Length: 0\r\nX-Pad: y HTTP/1.1\r\n" ++
        "Host: 127.0.0.1:5050\r\nConnection: close\r\n\r\n").toList)] ∧
    (parseRequest ("GET /actor1/x HTTP/1.1\r\nContent-Length: 0\r\nX-Pad: y HTTP/1.1\r\n" ++
        "Host: 127.0.0.1:5050\r\nConnection: close\r\n\r\n").toList).map
        (fun r => r.headers.lookup "Content-Length".toList) =
      some (some "0".toList) ∧
    (post sampleEnv sampleUpid (some "a?b".toList) (some "hi".toList) none
        sampleWorld).map (fun r => written r.2.trace) =
      some [(3, ("POST /actor1/a?b HTTP/1.1\r\nHost: 127.0.0.1:5050\r\n" ++
        "Connection: close\r\nContent-Length: 2\r\n\r\nhi").toList)] ∧
    (parseRequest ("POST /actor1/a?b HTTP/1.1\r\nHost: 127.0.0.1:5050\r\n" ++
        "Connection: close\r\nContent-Length: 2\r\n\r\nhi").toList).map
        (fun r => (r.path, r.query)) =
      some ("/actor1/a".toList, some "b".toList) := by
  decide

/-- C10, amended: `get` is `request` with method `GET`, no body and no content
type, and `post` is `request` with method `POST` and no query. The serialization
of a `get` never fails; its bytes are the request line, `Host` and
`Connection: close` followed by the blank line, and when the actor id, the path
and the query contain no CR LF sequence they read back with exactly the headers
`Host` and `Connection`, so with no `Content-Type` and no `Content-Length`, and
with no body. The serialization of a `post` fails, with the invalid-request
failure, exactly when a content type is given without a body; otherwise the
target written is `/id[/path]` with nothing appended, and when the actor id and
the path contain no `?` and the actor id, the path and the content type contain
no CR LF sequence the bytes read back with no query. When socket creation,
close-on-exec and connect succeed, a `post` with a content type and no body
resolves to the invalid-request failure. -/
theorem C10_facades_forward (env : Env) (upid : UPID) (path query body contentType : Option Str) :
    get env upid path query = request env upid "GET".toList path query none none ∧
    post env upid path body contentType =
      request env upid "POST".toList path none body contentType ∧
    (∃ bytes, serialize upid "GET".toList path query none none = Except.ok bytes ∧
      bytes = "GET /".toList ++ upid.id ++ pathPart path ++ queryPart query ++
        " HTTP/1.1\r\n".toList ++ "Host: ".toList ++ inet_ntop upid.ip ++ ":".toList ++
        decimal upid.port ++ "\r\n".toList ++ "Connection: close\r\n\r\n".toList ∧
      "Connection: close\r\n\r\n".toList <:+ bytes) ∧
    (hasCRLF upid.id = false → (∀ p, path = some p → hasCRLF p = false) →
      (∀ q, query = some q → hasCRLF q = false) →
      ∃ bytes r, serialize upid "GET".toList path query none none = Except.ok bytes ∧
        parseRequest bytes = some r ∧ r.method = "GET".toList ∧
        r.headers = [("Host".toList, inet_ntop upid.ip ++ ":".toList ++ decimal upid.port),
          ("Connection".toList, "close".toList)] ∧
        r.headers.lookup "Content-Type".toList = none ∧
        r.headers.lookup "Content-Length".toList = none ∧
        r.body = none) ∧
    (serialize upid "POST".toList path none body contentType =
        Except.error "Attempted to do a POST with a Content-Type but no body".toList ↔
      (contentType.isSome = true ∧ body.isNone = true)) ∧
    ((∃ rest, serialize upid "POST".toList path none body contentType =
        Except.ok ("POST /".toList ++ upid.id ++ pathPart path ++
          " HTTP/1.1\r\n".toList ++ rest)) ↔
      ¬ (contentType.isSome = true ∧ body.isNone = true)) ∧
    (¬ (contentType.isSome = true ∧ body.isNone = true) →
      '?' ∉ upid.id → (∀ p, path = some p → '?' ∉ p) →
      hasCRLF upid.id = false → (∀ p, path = some p → hasCRLF p = false) →
      (∀ c, contentType = some c → hasCRLF c = false) →
      ∃ bytes r, serialize upid "POST".toList path none body contentType = Except.ok bytes ∧
        parseRequest bytes = some r ∧ r.method = "POST".toList ∧ r.query = none ∧
        r.body = body) ∧
    (∀ w s, env.socket = Try.some s → env.cloexec s = Try.some () →
      ¬ env.connect s upid.ip upid.port < 0 →
      (contentType.isSome = true ∧ body.isNone = true) →
      post env upid path body contentType w =
        some (Future.failed "Attempted to do a POST with a Content-Type but no body".toList,
          World.mk w.heap (w.trace ++ [Event.socket, Event.cloexec s,
            Event.connect s upid.ip upid.port, Event.close s]))) := by
  have hget := serialize_valid upid "GET".toList path query none none (by simp)
  refine ⟨rfl, rfl, ?_, ?_, ?_, ?_, ?_, ?_⟩
  · refine ⟨_, hget, ?_, ?_⟩
    · cases path <;> cases query <;> simp [wireBytes, pathPart, queryPart]
    · have hshape : wireBytes upid "GET".toList path query none none =
          ("GET /".toList ++ upid.id ++ pathPart path ++ queryPart query ++
            " HTTP/1.1\r\n".toList ++ "Host: ".toList ++ inet_ntop upid.ip ++ ":".toList ++
            decimal upid.port ++ "\r\n".toList) ++ "Connection: close\r\n\r\n".toList := by
        cases path <;> cases query <;> simp [wireBytes, pathPart, queryPart]
      rw [hshape]
      exact List.suffix_append _ _
  · intro hid hp hq
    obtain ⟨r, hr, hmeth, hhead, hbody, _⟩ :=
      parseRequest_wireBytes upid "GET".toList path query none none (by decide) hid hp hq
        (fun c h => by cases h)
    have hhead2 : r.headers =
        [("Host".toList, inet_ntop upid.ip ++ ":".toList ++ decimal upid.port),
          ("Connection".toList, "close".toList)] := hhead
    have h1 : ("Content-Type".toList == "Host".toList) = false := by decide
    have h2 : ("Content-Type".toList == "Connection".toList) = false := by decide
    have h3 : ("Content-Length".toList == "Host".toList) = false := by decide
    have h4 : ("Content-Length".toList == "Connection".toList) = false := by decide
    refine ⟨_, r, hget, hr, hmeth, hhead2, ?_, ?_, hbody⟩
    · rw [hhead2]; simp only [List.lookup, h1, h2]
    · rw [hhead2]; simp only [List.lookup, h3, h4]
  · by_cases hv : contentType.isSome = true ∧ body.isNone = true
    · obtain ⟨c, rfl⟩ := Option.isSome_iff_exists.mp hv.1
      have hb : body = none := by simpa using hv.2
      subst hb
      have := serialize_invalid upid "POST".toList path none c
      simp only [invalidRequest] at this
      exact ⟨fun _ => hv, fun _ => this⟩
    · rw [serialize_valid upid "POST".toList path none body contentType hv]
      exact ⟨fun h => (by cases h), fun h => absurd h hv⟩
  · have key : ∃ rest, wireBytes upid "POST".toList path none body contentType =
        "POST /".toList ++ upid.id ++ pathPart path ++ " HTTP/1.1\r\n".toList ++ rest := by
      refine ⟨"Host: ".toList ++ inet_ntop upid.ip ++ ":".toList ++
        decimal upid.port ++ "\r\n".toList ++ "Connection: close\r\n".toList ++
        (match contentType with
          | some c => "Content-Type: ".toList ++ c ++ "\r\n".toList
          | none => []) ++
        (match body with
          | none => "\r\n".toList
          | some b => "Content-Length: ".toList ++ decimal b.length ++ "\r\n\r\n".toList ++ b),
        ?_⟩
      cases path <;> simp [wireBytes, pathPart]
    by_cases hv : contentType.isSome = true ∧ body.isNone = true
    · obtain ⟨c, rfl⟩ := Option.isSome_iff_exists.mp hv.1
      have hb : body = none := by simpa using hv.2
      subst hb
      rw [serialize_invalid upid "POST".toList path none c]
      exact ⟨fun ⟨_, h⟩ => (by cases h), fun h => absurd hv h⟩
    · rw [serialize_valid upid "POST".toList path none body contentType hv]
      obtain ⟨rest, hrest⟩ := key
      exact ⟨fun _ => hv, fun _ => ⟨rest, congrArg Except.ok hrest⟩⟩
  · intro hv hqid hqp hid hp hct
    obtain ⟨r, hr, hmeth, _, hbody, hquery⟩ :=
      parseRequest_wireBytes upid "POST".toList path none body contentType (by decide) hid hp
        (fun q h => by cases h) hct
    have htarget : '?' ∉ requestTarget upid path none := by
      cases path with
      | none => simp [requestTarget, pathPart, queryPart, hqid]
      | some p => simp [requestTarget, pathPart, queryPart, hqid, hqp p rfl]
    exact ⟨_, r, serialize_valid upid "POST".toList path none body contentType hv, hr, hmeth,
      hquery htarget, hbody⟩
  · intro w s hs hc hn hv
    obtain ⟨c, rfl⟩ := Option.isSome_iff_exists.mp hv.1
    have hb : body = none := by simpa using hv.2
    subst hb
    exact request_serialize_fails env upid "POST".toList path none none (some c) w s _ hs hc hn
      (serialize_invalid upid "POST".toList path none c)

/-- C10, amended, on a `get` and a `post` whose path contains a space, and on a
`post` with a content type and no body. -/
theorem C10_facades_forward_witness :
    hasCRLF sampleUpid.id = false ∧ '?' ∉ sampleUpid.id ∧
    (∃ bytes r, serialize sampleUpid "GET".toList (some "a b".toList) (some "k=v".toList)
        none none = Except.ok bytes ∧
      parseRequest bytes = some r ∧ r.method = "GET".toList ∧
      r.headers =
        [("Host".toList, inet_ntop sampleUpid.ip ++ ":".toList ++ decimal sampleUpid.port),
          ("Connection".toList, "close".toList)] ∧
      r.headers.lookup "Content-Type".toList = none ∧
      r.headers.lookup "Content-Length".toList = none ∧
      r.body = none) ∧
    (∃ bytes r, serialize sampleUpid "POST".toList (some "a b".toList) none
        (some "hi".toList) (some "text/plain".toList) = Except.ok bytes ∧
      parseRequest bytes = some r ∧ r.method = "POST".toList ∧ r.query = none ∧
      r.body = some "hi".toList) ∧
    sampleEnv.socket = Try.some 3 ∧ sampleEnv.cloexec 3 = Try.some () ∧
    ¬ sampleEnv.connect 3 sampleUpid.ip sampleUpid.port < 0 ∧
    post sampleEnv sampleUpid (some "x".toList) none (some "text/plain".toList) sampleWorld =
      some (Future.failed "Attempted to do a POST with a Content-Type but no body".toList,
        World.mk sampleWorld.heap (sampleWorld.trace ++ [Event.socket, Event.cloexec 3,
          Event.connect 3 sampleUpid.ip sampleUpid.port, Event.close 3])) :=
  ⟨by decide, by decide,
    (C10_facades_forward sampleEnv sampleUpid (some "a b".toList) (some "k=v".toList)
      (some "hi".toList) (some "text/plain".toList)).2.2.2.1 (by decide)
      (fun p h => by cases h; decide) (fun q h => by cases h; decide),
    (C10_facades_forward sampleEnv sampleUpid (some "a b".toList) (some "k=v".toList)
      (some "hi".toList) (some "text/plain".toList)).2.2.2.2.2.2.1 (by decide) (by decide)
      (fun p h => by cases h; decide) (by decide) (fun p h => by cases h; decide)
      (fun c h => by cases h; decide),
    rfl, rfl, by decide,
    (C10_facades_forward sampleEnv sampleUpid (some "x".toList) none none
      (some "text/plain".toList)).2.2.2.2.2.2.2 sampleWorld 3 rfl rfl (by decide) ⟨rfl, rfl⟩⟩
